import Mathlib

set_option autoImplicit false

/-!
Verification of the LinkedIn post-ingestion scraper (`scrap.py`, `sentiment.py`).

Strings are embedded as `List Char` (one entry per Unicode code point, exactly
as Python 3 `str` indexes text).  Python functions that can raise are embedded
as `Option`-valued functions (`none` = an exception escapes).  The TextBlob
polarity engine is external to the repository; following the specification it
is modelled as an opaque function returning either a polarity (a rational) or
`none` (the engine raised).  Floating point numbers are modelled by `ℚ`;
`round(x, 3)` is modelled as rounding to the nearest multiple of 1/1000
(Python's tie-breaking on binary floats differs only at exact half-way points,
which none of the statements below touch).
-/

/-- Python strings: a list of Unicode code points. -/
abbrev Str := List Char

/-- Convert a Lean string literal to the embedding's string type. -/
def lstr (s : String) : Str := s.data

/-- Python's notion of whitespace, shared by `str.strip()`, `str.split()` and
the regex class `\s` (Unicode mode): ASCII space, `\t\n\v\f\r`, the C1 range
`\x1c`–`\x1f`, NEL, NBSP and the Unicode space separators. -/
def pyIsSpace (c : Char) : Bool :=
  c.toNat == 32 || (9 ≤ c.toNat && c.toNat ≤ 13) || (28 ≤ c.toNat && c.toNat ≤ 31) ||
  c.toNat == 0x85 || c.toNat == 0xA0 || c.toNat == 0x1680 ||
  (0x2000 ≤ c.toNat && c.toNat ≤ 0x200A) ||
  c.toNat == 0x2028 || c.toNat == 0x2029 || c.toNat == 0x202F ||
  c.toNat == 0x205F || c.toNat == 0x3000

/-- Python `str.strip()` with no arguments: drop whitespace from both ends. -/
def pyStrip (l : Str) : Str :=
  ((l.dropWhile pyIsSpace).reverse.dropWhile pyIsSpace).reverse

/-- Worker for `pySplitWs`.  Each step consumes at least one character, so a
fuel of `length + 1` always suffices; fuel is used instead of well-founded
recursion so that the kernel can evaluate the function on concrete inputs. -/
def pySplitWsGo : Nat → Str → List Str
  | 0, _ => []
  | fuel + 1, l =>
      match l.dropWhile pyIsSpace with
      | [] => []
      | c :: cs =>
          (c :: cs.takeWhile (fun x => !pyIsSpace x)) ::
            pySplitWsGo fuel (cs.dropWhile (fun x => !pyIsSpace x))

/-- Python `str.split()` with no arguments: split on runs of whitespace,
discarding empty pieces.  (The head `c` of the remainder after dropping
leading whitespace is never itself whitespace, so the first token is
`c` followed by the non-whitespace run after it.) -/
def pySplitWs (l : Str) : List Str := pySplitWsGo (l.length + 1) l

/-- Python `' '.join(parts)`. -/
def joinSpace (parts : List Str) : Str := List.intercalate [' '] parts

/-- Bool test: does `needle` occur as a contiguous substring of `hay`
(Python's `needle in hay`)? -/
def containsSub (hay needle : Str) : Bool :=
  match hay with
  | [] => needle.isEmpty
  | _ :: t => needle.isPrefixOf hay || containsSub t needle

/-- Suffix of `hay` after the last occurrence of `needle` (`none` when
`needle` does not occur).  For a needle that cannot overlap itself — such as
`"urn:li:activity:"`, which has no nontrivial border — this equals Python's
`hay.split(needle)[-1]`. -/
def afterLast (hay needle : Str) : Option Str :=
  match hay with
  | [] => if needle.isEmpty then some [] else none
  | _ :: t =>
      match afterLast t needle with
      | some r => some r
      | none => if needle.isPrefixOf hay then some (hay.drop needle.length) else none

/-- ASCII-range lowercasing (the only case folding the scraper's inputs need). -/
def asciiLower (c : Char) : Char :=
  if 'A' ≤ c ∧ c ≤ 'Z' then Char.ofNat (c.toNat + 32) else c

/-- ASCII-range uppercasing, modelling Python `str.upper()` on the scraper's
inputs (full Unicode case mapping agrees on every character these claims use). -/
def asciiUpper (c : Char) : Char :=
  if 'a' ≤ c ∧ c ≤ 'z' then Char.ofNat (c.toNat - 32) else c

def pyToUpper (l : Str) : Str := l.map asciiUpper

def isAsciiDigit (c : Char) : Bool := '0' ≤ c && c ≤ '9'

/-- Numeric value of a digit string (most significant digit first). -/
def digitsVal (l : Str) : ℕ := l.foldl (fun a c => 10 * a + (c.toNat - 48)) 0

/-- Python `int(s)` on a decimal literal: optional sign, then at least one
digit, with surrounding whitespace allowed; `none` models `ValueError`.
(Underscore digit separators, an extension Python also accepts, are not
modelled; no input in this development contains them.) -/
def parsePyInt (s0 : Str) : Option ℤ :=
  let s := pyStrip s0
  let (sign, t) : ℤ × Str :=
    match s with
    | '+' :: t => (1, t)
    | '-' :: t => (-1, t)
    | t => (1, t)
  if t ≠ [] ∧ t.all isAsciiDigit then some (sign * digitsVal t) else none

/-- Python `float(s)` on a decimal literal: optional sign, integer part,
optional `.` and fractional part, at least one digit overall, surrounding
whitespace allowed; `none` models `ValueError`.  (Exponents, `inf`, `nan` and
underscore separators are not modelled; no input in this development uses
them.)  The value is exact as a rational; Python's binary floats agree on
every concrete input appearing below. -/
def parsePyFloat (s0 : Str) : Option ℚ :=
  let s := pyStrip s0
  let (sign, t) : ℚ × Str :=
    match s with
    | '+' :: t => (1, t)
    | '-' :: t => (-1, t)
    | t => (1, t)
  let ip := t.takeWhile isAsciiDigit
  let rest := t.dropWhile isAsciiDigit
  match rest with
  | [] => if ip ≠ [] then some (sign * digitsVal ip) else none
  | '.' :: frac =>
      if frac.all isAsciiDigit ∧ (ip ≠ [] ∨ frac ≠ []) then
        some (sign * ((digitsVal ip : ℚ) + (digitsVal frac : ℚ) / 10 ^ frac.length))
      else none
  | _ => none

/-- Python `int(x)` on a float: truncation toward zero. -/
def truncQ (q : ℚ) : ℤ := if 0 ≤ q then ⌊q⌋ else ⌈q⌉

/-- Python `round(x, 3)`: round to the nearest multiple of 1/1000. -/
def round3 (q : ℚ) : ℚ := (round (q * 1000) : ℤ) / 1000

/-- `scrap.py` lines 106–116, `convert_abbreviated_to_number`.  The result is
`none` exactly when the Python original raises: the `K`/`M` branches call
`float` without a `try`, so a string containing `K` (or `M`) after
uppercasing whose remainder is not a float literal escapes with
`ValueError`.  Only the final `int(s)` branch is guarded (yielding 0). -/
def convert_abbreviated_to_number (s0 : Str) : Option ℤ :=
  let s := pyStrip (pyToUpper s0)
  if 'K' ∈ s then
    (parsePyFloat (s.filter (fun c => c ≠ 'K'))).map (fun q => truncQ (q * 1000))
  else if 'M' ∈ s then
    (parsePyFloat (s.filter (fun c => c ≠ 'M'))).map (fun q => truncQ (q * 1000000))
  else
    some ((parsePyInt s).getD 0)

/-- Worker for `pyReplace`: Python `str.replace(pat, rep)` with the nonempty
pattern `p :: ps`, scanning left to right over non-overlapping occurrences. -/
def pyReplaceGo (p : Char) (ps : Str) (rep : Str) : Nat → Str → Str
  | 0, l => l
  | _ + 1, [] => []
  | fuel + 1, c :: rest =>
      if (p :: ps).isPrefixOf (c :: rest) then
        rep ++ pyReplaceGo p ps rep fuel ((c :: rest).drop (ps.length + 1))
      else c :: pyReplaceGo p ps rep fuel rest

/-- Python `str.replace(p :: ps, rep)`. -/
def pyReplace (p : Char) (ps : Str) (rep : Str) (l : Str) : Str :=
  pyReplaceGo p ps rep (l.length + 1) l

/-- Worker for `markSub`, modelling one `re.sub` pass of the pattern
`m{1,3}([^m]*)m{1,3}` (for `m` one of `*`, `_`) replaced by the captured
group, exactly as `re.sub` scans: at a position starting a run of `r`
occurrences of `m`,
* if `r ≥ 4`, the greedy first group takes 3, the middle `[^m]*` is empty
  (the next character is still `m`) and the greedy second group takes
  `min 3 (r - 3)`; the match is replaced by the empty middle;
* if `1 ≤ r ≤ 3` and another `m`-run of length `r2` follows the next
  `m`-free stretch `t`, the first group takes the whole run, the middle is
  `t` and the second group takes `min 3 r2`; the match is replaced by `t`;
* if `1 ≤ r ≤ 3` and no further `m` occurs: for `r ≥ 2` the first group
  backtracks to `r - 1`, the middle is empty and the second group takes the
  last `m` of the run (the run is deleted); for `r = 1` there is no match
  and the scanner advances one character.
Scanning resumes after the match (replacements are not rescanned). -/
def markSubGo (m : Char) : Nat → Str → Str
  | 0, l => l
  | _ + 1, [] => []
  | fuel + 1, c :: rest =>
      if c = m then
        let r := 1 + (rest.takeWhile (fun x => x == m)).length
        let tail1 := rest.dropWhile (fun x => x == m)
        if 4 ≤ r then
          markSubGo m fuel (List.replicate (r - (3 + min 3 (r - 3))) m ++ tail1)
        else
          let t := tail1.takeWhile (fun x => x != m)
          match tail1.dropWhile (fun x => x != m) with
          | [] =>
              if 2 ≤ r then markSubGo m fuel tail1
              else c :: markSubGo m fuel rest
          | _ :: tail3 =>
              let r2 := 1 + (tail3.takeWhile (fun x => x == m)).length
              t ++ markSubGo m fuel
                (List.replicate (r2 - min 3 r2) m ++ tail3.dropWhile (fun x => x == m))
      else c :: markSubGo m fuel rest

/-- One pass of `re.sub(r'm{1,3}([^m]*)m{1,3}', r'\1', ·)`. -/
def markSub (m : Char) (l : Str) : Str := markSubGo m (l.length + 1) l

/-- Case-insensitive (ASCII) test that `pat` (given lowercase) is a prefix. -/
def lowerPrefixOf : Str → Str → Bool
  | [], _ => true
  | _ :: _, [] => false
  | p :: ps, c :: cs => (asciiLower c == p) && lowerPrefixOf ps cs

/-- Worker for `hashtagSub`, modelling
`re.sub(r'hashtag\s*#', '#', ·, flags=re.IGNORECASE)`: at each position, if
the next 7 characters spell `hashtag` (case-insensitively) and after them a
(possibly empty) whitespace run is followed by `#`, the whole match is
replaced by `#` and scanning resumes after it; otherwise the scanner
advances one character. -/
def hashtagSubGo : Nat → Str → Str
  | 0, l => l
  | _ + 1, [] => []
  | fuel + 1, c :: rest =>
      if lowerPrefixOf (lstr "hashtag") (c :: rest) then
        match ((c :: rest).drop 7).dropWhile pyIsSpace with
        | '#' :: r => '#' :: hashtagSubGo fuel r
        | _ => c :: hashtagSubGo fuel rest
      else c :: hashtagSubGo fuel rest

/-- One pass of the hashtag-normalisation substitution (`scrap.py` line 196). -/
def hashtagSub (l : Str) : Str := hashtagSubGo (l.length + 1) l

/-- Worker for `wsCollapse`, modelling `re.sub(r'\s+', ' ', ·)`. -/
def wsCollapseGo : Nat → Str → Str
  | 0, l => l
  | _ + 1, [] => []
  | fuel + 1, c :: rest =>
      if pyIsSpace c then ' ' :: wsCollapseGo fuel (rest.dropWhile pyIsSpace)
      else c :: wsCollapseGo fuel rest

/-- Collapse every whitespace run to a single space (`scrap.py` line 199). -/
def wsCollapse (l : Str) : Str := wsCollapseGo (l.length + 1) l

/-- Code points deleted by the range substitutions of `scrap.py`
lines 156–167 (emoji and symbol blocks). -/
def inEmojiRanges (c : Char) : Bool :=
  let n := c.toNat
  (0x1F600 ≤ n && n ≤ 0x1F64F) || (0x1F300 ≤ n && n ≤ 0x1F5FF) ||
  (0x1F680 ≤ n && n ≤ 0x1F6FF) || (0x1F1E0 ≤ n && n ≤ 0x1F1FF) ||
  (0x1F900 ≤ n && n ≤ 0x1F9FF) || (0x1FA70 ≤ n && n ≤ 0x1FAFF) ||
  (0x2600 ≤ n && n ≤ 0x26FF) || (0x2700 ≤ n && n ≤ 0x27BF) ||
  (0x1F780 ≤ n && n ≤ 0x1F7FF) || (0x1F800 ≤ n && n ≤ 0x1F8FF)

/-- Membership of a character's code point in an explicit deletion class. -/
def inSet (c : Char) (s : List Nat) : Bool := s.contains c.toNat

/-- Character class of `scrap.py` line 170.  The source file is
mojibake-corrupted: the classes of lines 170–179 and 193 contain the listed
(deduplicated) BMP code points, taken verbatim from the file's bytes. -/
def line170Set : List Nat :=
  [0xE2, 0xA4, 0xEF, 0xB8, 0xF0, 0x178, 0x2019, 0x2122, 0x161, 0x203A,
   0x153, 0x2013, 0x17D, 0xA3, 0x2022, 0x17E, 0x201C, 0x2014, 0x2DC]

/-- Character class of `scrap.py` line 171. -/
def line171Set : List Nat :=
  [0xE2, 0x153, 0x2026, 0x152, 0x2DC, 0x2022, 0xF0, 0x178, 0xA2, 0x201D,
   0xB4, 0xA1, 0xA0, 0xA3, 0xA4, 0x161, 0xAB, 0xAA]

/-- Character class of `scrap.py` line 172. -/
def line172Set : List Nat :=
  [0xE2, 0xAD, 0xF0, 0x178, 0x152, 0x153, 0xA8, 0x2019, 0xAB, 0x161, 0xA1,
   0x201D, 0xA5, 0xAF]

/-- Character class of `scrap.py` line 173. -/
def line173Set : List Nat :=
  [0xF0, 0x178, 0x2018, 0x17D, 0x2122, 0x152, 0xA4, 0x2039]

/-- Character class of `scrap.py` line 176. -/
def line176Set : List Nat :=
  [0xE2, 0x2030, 0x2C6, 0xA0, 0xA4, 0xA5, 0xC2, 0xB1, 0xC3, 0x2014, 0xB7,
   0x161, 0x17E, 0x2020, 0x2018, 0xAB]

/-- Character class of `scrap.py` line 179. -/
def line179Set : List Nat :=
  [0xE2, 0x20AC, 0xA0, 0xA1, 0xC2, 0xA7, 0xB6]

/-- Character class of `scrap.py` line 193 (bullet glyphs, mojibake form). -/
def line193Set : List Nat :=
  [0xE2, 0x20AC, 0xA2, 0x2014, 0xA6, 0x2013, 0xAA, 0xAB, 0xA3]

/-- Characters deleted by `scrap.py` line 182:
`[\x00-\x08\x0B\x0C\x0E-\x1F\x7F]`. -/
def isControlRemoved (c : Char) : Bool :=
  c.toNat ≤ 8 || c.toNat == 0x0B || c.toNat == 0x0C ||
  (0x0E ≤ c.toNat && c.toNat ≤ 0x1F) || c.toNat == 0x7F

/-- The cleaning pipeline of `scrap.py` lines 147–202, stage by stage in
source order, on a nonempty input. -/
def cleanPipeline (l0 : Str) : Str :=
  -- line 147: replace('\n', ' ').replace('\r', ' ')
  let l := l0.map (fun c => if c = Char.ofNat 10 || c = Char.ofNat 13 then ' ' else c)
  -- lines 150–151: in the (mojibake-corrupted) source file these four
  -- replacements are the identities  '  ↦ '  and  "  ↦ "  on plain ASCII
  -- quotes; they are kept here verbatim.
  let l := pyReplace (Char.ofNat 39) [] [Char.ofNat 39] l
  let l := pyReplace (Char.ofNat 39) [] [Char.ofNat 39] l
  let l := pyReplace (Char.ofNat 34) [] [Char.ofNat 34] l
  let l := pyReplace (Char.ofNat 34) [] [Char.ofNat 34] l
  -- line 152: backtick ↦ apostrophe, and U+00C2 U+00B4 ↦ apostrophe
  let l := pyReplace (Char.ofNat 96) [] [Char.ofNat 39] l
  let l := pyReplace (Char.ofNat 0xC2) [Char.ofNat 0xB4] [Char.ofNat 39] l
  -- lines 156–167: emoji block ranges
  let l := l.filter (fun c => !inEmojiRanges c)
  -- lines 170–179: explicit character classes
  let l := l.filter (fun c => !inSet c line170Set)
  let l := l.filter (fun c => !inSet c line171Set)
  let l := l.filter (fun c => !inSet c line172Set)
  let l := l.filter (fun c => !inSet c line173Set)
  let l := l.filter (fun c => !inSet c line176Set)
  let l := l.filter (fun c => !inSet c line179Set)
  -- line 182: control characters
  let l := l.filter (fun c => !isControlRemoved c)
  -- lines 186–187: markdown emphasis markers
  let l := markSub '*' l
  let l := markSub '_' l
  -- line 190: backticks and tildes
  let l := l.filter (fun c => !(c == Char.ofNat 96 || c == '~'))
  -- line 193: bullet glyphs
  let l := l.filter (fun c => !inSet c line193Set)
  -- line 196: hashtag normalisation
  let l := hashtagSub l
  -- line 199: whitespace collapse
  let l := wsCollapse l
  -- line 202: strip
  pyStrip l

/-- `scrap.py` lines 142–204, `clean_post_content`.  `none` models `None`;
`if not content: return ""` makes `None` and the empty string both yield
the empty string. -/
def clean_post_content : Option Str → Str
  | none => []
  | some c => if c = [] then [] else cleanPipeline c

/-- `scrap.py` lines 121–140 (= `sentiment.py` lines 21–41),
`analyze_sentiment`.  `avail` models the module flag `SENTIMENT_AVAILABLE`;
`engine` models `TextBlob(text).sentiment.polarity`, with `none` meaning the
engine raised (the `except` branch); `text = none` models passing `None`
(`post_content` can be `None` at the call site) and the empty string is
likewise falsy. -/
def analyze_sentiment (avail : Bool) (engine : Str → Option ℚ)
    (text : Option Str) : String × ℚ :=
  match text with
  | none => ("neutral", 0)
  | some t =>
      if avail = false ∨ t = [] then ("neutral", 0)
      else
        match engine t with
        | none => ("neutral", 0)
        | some polarity =>
            let sentiment :=
              if 1/10 < polarity then "positive"
              else if polarity < -(1/10) then "negative"
              else "neutral"
            (sentiment, round3 polarity)

/-! ## Field extraction and the ingestion loop (`scrap.py` `main`, lines 369–573) -/

/-- The activity-URN marker searched for in hrefs and `data-urn` attributes. -/
def activityMarker : Str := lstr "urn:li:activity:"

/-- `scrap.py` lines 439–443: candidate identifier from the detail-page
link's href.  `none` when the tag or attribute is missing, the href is falsy
(empty), or the marker does not occur; otherwise the suffix after the last
marker occurrence with every `/` removed (the `.replace("/", "")`). -/
def hrefSide (detailHref : Option Str) : Option Str :=
  match detailHref with
  | none => none
  | some h =>
      if h = [] then none
      else
        match afterLast (pyStrip h) activityMarker with
        | none => none
        | some t => some (t.filter (fun c => c ≠ '/'))

/-- `scrap.py` lines 445–447: candidate identifier from the container's
`data-urn` attribute (default `""`): the suffix after the last marker
occurrence, with no further processing. -/
def urnSide (dataUrn : Str) : Option Str := afterLast dataUrn activityMarker

/-- The actor-container fields the extractor reads. -/
structure ActorParts where
  nameRaw : Option Str
  metaHref : Option Str
  jobRaw : Option Str

/-- One post container, holding what the source's BeautifulSoup lookups
would return for it (the DOM traversal itself is the markup library's
concern; the spec treats a container as an opaque node with accessors). -/
structure Container where
  /-- href of the `link-to-details-page` anchor; `none` if tag or attribute missing. -/
  detailHref : Option Str
  /-- the container's `data-urn` attribute, `pw.get("data-urn", "")`. -/
  dataUrn : Str
  /-- the `update-components-actor__container` subtree, if present. -/
  actor : Option ActorParts
  /-- text of the `update-components-text` div (with `\n` separators), if the div exists. -/
  contentText : Option Str
  /-- `aria-label` of the reactions button; `none` if any lookup on the way fails. -/
  reactionsLabel : Option Str

/-- `scrap.py` lines 438–449: identifier resolution.  The href candidate is
used if truthy (nonempty); otherwise the `data-urn` candidate if truthy;
otherwise the container is skipped (`none`). -/
def resolvePostId (c : Container) : Option Str :=
  let p1 :=
    match hrefSide c.detailHref with
    | some t => if t = [] then none else some t
    | none => none
  match p1 with
  | some i => some i
  | none =>
      match urnSide c.dataUrn with
      | some t => if t = [] then none else some t
      | none => none

/-- `scrap.py` lines 462–479: author-name extraction with the
"always take the first half" duplication stripping. -/
def extractAuthorName (c : Container) : Option Str :=
  match c.actor with
  | none => none
  | some a =>
      match a.nameRaw with
      | none => none
      | some raw =>
          if raw = [] then none
          else
            let words := pySplitWs raw
            if 2 ≤ words.length then some (joinSpace (words.take (words.length / 2)))
            else some raw

/-- `scrap.py` lines 481–485: profile link (relative `/in/` links prefixed). -/
def extractAuthorProfile (c : Container) : Option Str :=
  match c.actor with
  | none => none
  | some a =>
      match a.metaHref with
      | none => none
      | some h =>
          if h = [] then none
          else
            let p := pyStrip h
            if (lstr "/in/").isPrefixOf p then some (lstr "https://www.linkedin.com" ++ p)
            else some p

/-- `scrap.py` lines 487–499: job-title extraction — the same halving rule as
the name, followed by `clean_post_content` (line 499). -/
def extractJobTitle (c : Container) : Option Str :=
  match c.actor with
  | none => none
  | some a =>
      match a.jobRaw with
      | none => none
      | some raw =>
          if raw = [] then none
          else
            let words := pySplitWs raw
            let halved :=
              if 2 ≤ words.length then joinSpace (words.take (words.length / 2)) else raw
            some (clean_post_content (some halved))

/-- `scrap.py` lines 501–505: content extraction: the div's text cleaned. -/
def extractContent (c : Container) : Option Str :=
  match c.contentText with
  | none => none
  | some raw => some (clean_post_content (some raw))

/-- `scrap.py` lines 510–518: the reactions label's first space-delimited
token (`aria_label.split(" ")[0]`) through `convert_abbreviated_to_number`;
`some 0` when no label was found, `none` when the conversion raises. -/
def extractReactions (c : Container) : Option ℤ :=
  match c.reactionsLabel with
  | none => some 0
  | some lab => convert_abbreviated_to_number (lab.takeWhile (fun x => x ≠ ' '))

/-- The run's external collaborators: the sentiment capability flag, the
opaque polarity engine, and the `datetime.utcnow()` timestamp text. -/
structure Env where
  available : Bool
  engine : Str → Option ℚ
  now : Str

/-- One persisted CSV row (`scrap.py` lines 523–533, in column order). -/
structure Row where
  postId : Str
  authorName : Str
  authorProfile : Str
  authorJobTitle : Str
  content : Str
  reactions : ℤ
  sentiment : String
  sentimentScore : ℚ
  dateCollected : Str
deriving DecidableEq

/-- `scrap.py` lines 462–533: assemble the row for a new identifier.
`none` models the only exception reachable in this stretch: an unguarded
`ValueError` escaping `convert_abbreviated_to_number` (all other steps are
total, so the evaluation order does not matter). -/
def makeRow (env : Env) (c : Container) (pid : Str) : Option Row :=
  match extractReactions c with
  | none => none
  | some reactions =>
      let contentOpt := extractContent c
      let s := analyze_sentiment env.available env.engine contentOpt
      some { postId := pid,
             authorName := (extractAuthorName c).getD [],
             authorProfile := (extractAuthorProfile c).getD [],
             authorJobTitle := (extractJobTitle c).getD [],
             content := contentOpt.getD [],
             reactions := reactions,
             sentiment := s.1,
             sentimentScore := s.2,
             dateCollected := env.now }

/-- `main`'s hard-coded limits (`scrap.py` lines 374–376). -/
def MAX_POSTS : ℕ := 1000

def MAX_SCROLL_ATTEMPTS : ℕ := 80

def MAX_NO_NEW_POSTS_IN_A_ROW : ℕ := 50

/-- The ingestion loop's mutable state (`scrap.py` lines 422–427 plus the
ledger, the store contents, and a crash flag; `cycleIdx` counts executed
while-iterations and indexes the snapshot sequence). -/
structure St where
  ledger : List Str
  rows : List Row
  newPosts : ℕ
  totalProcessed : ℕ
  skipped : ℕ
  scroll : ℕ
  noNew : ℕ
  cycleIdx : ℕ
  crashed : Bool

/-- `scrap.py` lines 437–546: process one container.  The Bool reports
whether a new row was appended (used for the `MAX_POSTS` break). -/
def processContainer (env : Env) (c : Container) (s : St) : St × Bool :=
  match resolvePostId c with
  | none => (s, false)
  | some pid =>
      let s1 := { s with totalProcessed := s.totalProcessed + 1 }
      if pid ∈ s1.ledger then
        ({ s1 with skipped := s1.skipped + 1 }, false)
      else
        let s2 := { s1 with ledger := pid :: s1.ledger }
        match makeRow env c pid with
        | none => ({ s2 with crashed := true }, false)
        | some row =>
            ({ s2 with rows := s2.rows ++ [row], newPosts := s2.newPosts + 1 }, true)

/-- The `for pw in post_wrappers` loop, stopping early on a crash or on the
`if new_posts_added >= MAX_POSTS: break` after an accepted post. -/
def processAll (env : Env) : List Container → St → St
  | [], s => s
  | c :: cs, s =>
      if (processContainer env c s).1.crashed then (processContainer env c s).1
      else if (processContainer env c s).2 = true ∧
          MAX_POSTS ≤ (processContainer env c s).1.newPosts then (processContainer env c s).1
      else processAll env cs (processContainer env c s).1

/-- One iteration of the while loop (`scrap.py` lines 432–557): capture the
snapshot for this cycle, process its containers, update the stagnation
counter (lines 548–551), and advance pagination when still under the post
cap (lines 553–557).  A crash aborts the iteration before those updates. -/
def cycleStep (env : Env) (snaps : ℕ → List Container) (s : St) : St :=
  let s1 := processAll env (snaps s.cycleIdx) s
  if s1.crashed then { s1 with cycleIdx := s.cycleIdx + 1 }
  else
    let s2 :=
      if s1.newPosts = s.newPosts then { s1 with noNew := s1.noNew + 1 }
      else { s1 with noNew := 0 }
    let s3 := if s2.newPosts < MAX_POSTS then { s2 with scroll := s2.scroll + 1 } else s2
    { s3 with cycleIdx := s.cycleIdx + 1 }

/-- The while-loop condition (`scrap.py` line 432); a crash exits the loop. -/
def loopGuard (s : St) : Prop :=
  s.crashed = false ∧ s.newPosts < MAX_POSTS ∧ s.scroll < MAX_SCROLL_ATTEMPTS ∧
    s.noNew < MAX_NO_NEW_POSTS_IN_A_ROW

instance (s : St) : Decidable (loopGuard s) := by unfold loopGuard; infer_instance

/-- The while loop, fuelled; every guarded iteration either increments
`scroll` or falsifies the guard, so `MAX_SCROLL_ATTEMPTS + 1` units of fuel
always reach a state with a false guard. -/
def runLoop (env : Env) (snaps : ℕ → List Container) : ℕ → St → St
  | 0, s => s
  | fuel + 1, s =>
      if loopGuard s then runLoop env snaps fuel (cycleStep env snaps s) else s

/-- Fresh counters at loop entry (`scrap.py` lines 422–427). -/
def initState (ledger : List Str) (rows : List Row) : St :=
  { ledger := ledger, rows := rows, newPosts := 0, totalProcessed := 0, skipped := 0,
    scroll := 0, noNew := 0, cycleIdx := 0, crashed := false }

/-- `scrap.py` lines 27–43, `load_existing_post_ids`: the set of stripped,
nonempty `Post_ID` values of the stored rows. -/
def load_existing_post_ids (stored : List Row) : List Str :=
  stored.foldr
    (fun r acc => let i := pyStrip r.postId; if i = [] then acc else i :: acc) []

/-- One full run of the ingestion loop against a snapshot sequence, starting
from a store holding `stored` (ledger loaded as at `scrap.py` line 382). -/
def runIngestion (env : Env) (snaps : ℕ → List Container) (stored : List Row) : St :=
  runLoop env snaps (MAX_SCROLL_ATTEMPTS + 1)
    (initState (load_existing_post_ids stored) stored)

/-! ## Report generation (`scrap.py` lines 209–364, `generate_sentiment_report`) -/

/-- One raw CSV row as `csv.DictReader` hands it to the report generator:
`none` in a field means the column is absent from the file (so `row.get`
returns its default). -/
structure CsvRow where
  sentimentCol : Option Str
  scoreCol : Option Str
  reactionsCol : Option Str
  authorCol : Option Str

/-- One parsed data point of the report's read loop. -/
structure Entry where
  sentiment : Str
  score : ℚ
  reactions : ℤ
  author : Str
deriving DecidableEq

/-- `scrap.py` lines 220–229: one iteration of the read loop.  A missing
column falls back to its `row.get` default (`'neutral'`, `0.0`, `0`,
`'Unknown'`); a present but unparsable value makes `float`/`int` raise,
which the surrounding `except` turns into abandoning the report (`none`). -/
def readCsvRow (r : CsvRow) : Option Entry :=
  match (match r.scoreCol with | none => some (0 : ℚ) | some v => parsePyFloat v) with
  | none => none
  | some score =>
      match (match r.reactionsCol with | none => some (0 : ℤ) | some v => parsePyInt v) with
      | none => none
      | some reactions =>
          some { sentiment := r.sentimentCol.getD (lstr "neutral"),
                 score := score,
                 reactions := reactions,
                 author := r.authorCol.getD (lstr "Unknown") }

/-- Python `max(list)` under the source's `if list else 0` guard. -/
def maxZ : List ℤ → ℤ
  | [] => 0
  | x :: xs => xs.foldl max x

/-- Python `min(list)` under the source's `if list else 0` guard. -/
def minZ : List ℤ → ℤ
  | [] => 0
  | x :: xs => xs.foldl min x

/-- Mean of a list of integers with the source's `if list else 0` guard. -/
def avgOr0 (l : List ℤ) : ℚ := if l.length = 0 then 0 else (l.sum : ℚ) / l.length

/-- The statistics the report is built from (`scrap.py` lines 242–272).
The CSV layout that prints them is a display artifact and not modelled. -/
structure ReportStats where
  totalPosts : ℕ
  positiveCount : ℕ
  negativeCount : ℕ
  neutralCount : ℕ
  positivePct : ℚ
  negativePct : ℚ
  neutralPct : ℚ
  avgScore : ℚ
  totalReactions : ℤ
  avgReactions : ℚ
  maxReactions : ℤ
  minReactions : ℤ
  uniqueAuthors : ℕ
  avgPositiveReactions : ℚ
  avgNegativeReactions : ℚ
  avgNeutralReactions : ℚ
deriving DecidableEq

/-- `scrap.py` lines 242–272: the aggregate computations, on a nonempty
entry list. -/
def computeStats (entries : List Entry) : ReportStats :=
  let total := entries.length
  let sentiments := entries.map (fun e => e.sentiment)
  let scores := entries.map (fun e => e.score)
  let reacts := entries.map (fun e => e.reactions)
  let authors := entries.map (fun e => e.author)
  let pos := sentiments.count (lstr "positive")
  let neg := sentiments.count (lstr "negative")
  let neu := sentiments.count (lstr "neutral")
  let posR := (entries.filter (fun e => e.sentiment = lstr "positive")).map (fun e => e.reactions)
  let negR := (entries.filter (fun e => e.sentiment = lstr "negative")).map (fun e => e.reactions)
  let neuR := (entries.filter (fun e => e.sentiment = lstr "neutral")).map (fun e => e.reactions)
  { totalPosts := total,
    positiveCount := pos, negativeCount := neg, neutralCount := neu,
    positivePct := (pos : ℚ) / total * 100,
    negativePct := (neg : ℚ) / total * 100,
    neutralPct := (neu : ℚ) / total * 100,
    avgScore := scores.sum / total,
    totalReactions := reacts.sum,
    avgReactions := if 0 < total then (reacts.sum : ℚ) / total else 0,
    maxReactions := maxZ reacts,
    minReactions := minZ reacts,
    uniqueAuthors := authors.dedup.length,
    avgPositiveReactions := avgOr0 posR,
    avgNegativeReactions := avgOr0 negR,
    avgNeutralReactions := avgOr0 neuR }

/-- `scrap.py` lines 209–364, `generate_sentiment_report`.  The input is
`none` when the store file is absent (`FileNotFoundError`, line 231: report
the failure and return).  A read error abandons the report (lines 234–236),
an empty data set abandons it (lines 238–240); otherwise the statistics are
computed and the report written.  `none` = no report output produced. -/
def generate_sentiment_report (store : Option (List CsvRow)) : Option ReportStats :=
  match store with
  | none => none
  | some rows =>
      match rows.mapM readCsvRow with
      | none => none
      | some entries => if entries = [] then none else some (computeStats entries)

/-! ## Specification-side definitions (for refinement-style claims) -/

/-- Modelled from the spec's wording of the duplication-stripping rule
(§4.1): "split on whitespace, if token count ≥ 2 take the first
`floor(n/2)` tokens joined by single spaces, else keep the raw string
unchanged." -/
def specDuplicationStrip (raw : Str) : Str :=
  let toks := pySplitWs raw
  if 2 ≤ toks.length then joinSpace (toks.take (toks.length / 2)) else raw

/-- Modelled from claim C5's wording: the persisted label and (rounded)
score satisfy the classification thresholds — `score > 0.1` implies
positive, `score < -0.1` implies negative, `-0.1 ≤ score ≤ 0.1` implies
neutral. -/
def labelScoreConsistent (label : String) (score : ℚ) : Prop :=
  (1/10 < score → label = "positive") ∧
  (score < -(1/10) → label = "negative") ∧
  (-(1/10) ≤ score ∧ score ≤ 1/10 → label = "neutral")

instance (label : String) (score : ℚ) : Decidable (labelScoreConsistent label score) := by
  unfold labelScoreConsistent; infer_instance

/-! ## Run invariants (used by the C1 and C2 proofs) -/

/-- Store-growth invariant: the store grew only by rows with
pairwise-distinct identifiers outside the loaded ledger, each resolved from
some snapshot container; the ledger contains the loaded ids and every
appended id. -/
def RowsInv (snaps : ℕ → List Container) (stored : List Row) (s : St) : Prop :=
  (∀ i ∈ load_existing_post_ids stored, i ∈ s.ledger) ∧
  ∃ app, s.rows = stored ++ app ∧ (app.map Row.postId).Nodup ∧
    (∀ i ∈ app.map Row.postId, i ∈ s.ledger) ∧
    (∀ r ∈ app, (∃ k c, c ∈ snaps k ∧ resolvePostId c = some r.postId) ∧
      r.postId ∉ load_existing_post_ids stored)

/-- As long as no crash happened, every ledger entry is a loaded id or the
id of a stored row (a crash can add an id without its row). -/
def LedgerBound (stored : List Row) (s : St) : Prop :=
  s.crashed = false →
    ∀ i ∈ s.ledger, i ∈ load_existing_post_ids stored ∨ i ∈ s.rows.map Row.postId

/-- Unless the loop crashed or hit the post cap mid-pass, every identifier
resolvable in an already-processed snapshot is in the ledger. -/
def PrevIdsInv (snaps : ℕ → List Container) (s : St) : Prop :=
  s.crashed = true ∨ MAX_POSTS ≤ s.newPosts ∨
    ∀ j, j < s.cycleIdx → ∀ c ∈ snaps j, ∀ i, resolvePostId c = some i → i ∈ s.ledger

/-! ## Shared concrete objects used in witnesses and counterexamples -/

/-- An environment with the sentiment capability disabled and no timestamp. -/
def trivEnv : Env := { available := false, engine := fun _ => none, now := [] }

/-- A fresh loop state over an empty store. -/
def trivSt : St := initState [] []

/-- A container none of whose lookups succeed. -/
def trivContainer : Container :=
  { detailHref := none, dataUrn := [], actor := none, contentText := none,
    reactionsLabel := none }

/-- A container whose job-title text node is a duplicated markdown-marked token. -/
def jobTitleContainer : Container :=
  { detailHref := none, dataUrn := [],
    actor := some { nameRaw := none, metaHref := none, jobRaw := some (lstr "**x** **x**") },
    contentText := none, reactionsLabel := none }

/-- A container whose author name text node is the duplicated "Jane Doe". -/
def janeContainer : Container :=
  { detailHref := none, dataUrn := [],
    actor := some { nameRaw := some (lstr "Jane Doe Jane Doe"), metaHref := none,
                    jobRaw := none },
    contentText := none, reactionsLabel := none }

/-- The fire emoji (U+1F525) followed by `A`: a name half that the text
normalizer would strip but author-name extraction must keep. -/
def fireName : Str := [Char.ofNat 0x1F525, 'A']

/-- A container whose author name text node duplicates an emoji-bearing name. -/
def fireContainer : Container :=
  { detailHref := none, dataUrn := [],
    actor := some { nameRaw := some (fireName ++ [' '] ++ fireName), metaHref := none,
                    jobRaw := some (fireName ++ [' '] ++ fireName) },
    contentText := none, reactionsLabel := none }

/-- A container having only a content div, holding the emoji-bearing text. -/
def fireContentContainer : Container :=
  { detailHref := none, dataUrn := [], actor := none, contentText := some fireName,
    reactionsLabel := none }

/-- A container resolvable only through `data-urn`, whose identifier carries
a leading space (`"urn:li:activity: 1"`). -/
def spaceyContainer : Container :=
  { detailHref := none, dataUrn := lstr "urn:li:activity: 1", actor := none,
    contentText := none, reactionsLabel := none }

/-- A snapshot sequence producing `spaceyContainer` on the first cycle only. -/
def spaceySnaps : ℕ → List Container := fun k => if k = 0 then [spaceyContainer] else []

/-- A CSV row all of whose optional columns are absent. -/
def emptyCsvRow : CsvRow :=
  { sentimentCol := none, scoreCol := none, reactionsCol := none, authorCol := none }

/-- The entry the report's read loop produces for a row with every optional
column missing: the `row.get` defaults. -/
def defaultEntry : Entry :=
  { sentiment := lstr "neutral", score := 0, reactions := 0, author := lstr "Unknown" }

/-! ## C3: the text normalizer -/

/-- C3, counterexample: `clean_post_content` is not idempotent.  On
`"hashtag hashtag#"` the hashtag substitution rewrites only the second
`hashtag…#` occurrence, producing `"hashtag #"` — which itself matches the
pattern, so a second application rewrites it to `"#"`. -/
theorem c3_counterexample :
    clean_post_content (some (clean_post_content (some (lstr "hashtag hashtag#")))) ≠
      clean_post_content (some (lstr "hashtag hashtag#")) := by decide

/-- C3, amended: the normalizer is a total function on strings (its embedding
is `Option Str → Str`, every Python step of the pipeline being exception
free), and empty or null input yields the empty string; but it is not
idempotent: the hashtag-normalisation step can create a fresh
`hashtag…#` occurrence that only a second pass rewrites
(`"hashtag hashtag#"` ↦ `"hashtag #"` ↦ `"#"`). -/
theorem c3_amended :
    clean_post_content none = [] ∧
    clean_post_content (some []) = [] ∧
    clean_post_content (some (lstr "hashtag hashtag#")) = lstr "hashtag #" ∧
    clean_post_content (some (lstr "hashtag #")) = lstr "#" := by decide

/-! ## C4: abbreviated-count parsing -/

/-- C4, counterexample: `convert_abbreviated_to_number` is neither total nor
non-negative.  `"K"` takes the `K` branch, where `float("")` raises an
uncaught `ValueError` (the claim demands 0); and `"-5"` returns the negative
`-5`. -/
theorem c4_counterexample :
    convert_abbreviated_to_number (lstr "K") = none ∧
    convert_abbreviated_to_number (lstr "-5") = some (-5) ∧ (-5 : ℤ) < 0 := by decide

/-- Truncation toward zero is the identity on integer values. -/
theorem truncQ_intCast (n : ℤ) : truncQ (n : ℚ) = n := by
  by_cases h : (0 : ℚ) ≤ (n : ℚ) <;> simp [truncQ, h]

/-- Evaluation helper for the multiplier branches on an integer-valued
product. -/
theorem truncQ_eq_of_eq_intCast {q : ℚ} {n : ℤ} (h : q = (n : ℚ)) : truncQ q = n := by
  rw [h, truncQ_intCast]

/-- C4, amended: conversion is total (never raises) on every input whose
uppercased, stripped form contains neither `K` nor `M` — on those a parseable
integer (possibly negative) is returned and anything else yields 0 — and the
claimed examples hold (`"1K"` ↦ 1000, `"2.5K"` ↦ 2500, `"3M"` ↦ 3000000,
`"42"` ↦ 42, `""` ↦ 0, non-numeric ↦ 0, `"1.2K"` ↦ 1200, where any `K`/`M`
occurrence — not only a trailing one — selects the multiplier branch); but a
`K`/`M`-bearing input whose remainder is not a float literal raises
(`"k"` ↦ `none`), and results can be negative (`"-5"` ↦ `-5`). -/
theorem c4_amended :
    (∀ s : Str, 'K' ∉ pyStrip (pyToUpper s) → 'M' ∉ pyStrip (pyToUpper s) →
      ∃ n : ℤ, convert_abbreviated_to_number s = some n) ∧
    convert_abbreviated_to_number (lstr "1K") = some 1000 ∧
    convert_abbreviated_to_number (lstr "2.5K") = some 2500 ∧
    convert_abbreviated_to_number (lstr "3M") = some 3000000 ∧
    convert_abbreviated_to_number (lstr "42") = some 42 ∧
    convert_abbreviated_to_number (lstr "") = some 0 ∧
    convert_abbreviated_to_number (lstr "x1,2") = some 0 ∧
    convert_abbreviated_to_number (lstr "1.2K") = some 1200 ∧
    convert_abbreviated_to_number (lstr "k") = none ∧
    convert_abbreviated_to_number (lstr "-5") = some (-5) := by
  refine ⟨?_, ?_, ?_, ?_, by decide, by decide, by decide, ?_, by decide, by decide⟩
  · intro s hK hM
    refine ⟨(parsePyInt (pyStrip (pyToUpper s))).getD 0, ?_⟩
    unfold convert_abbreviated_to_number
    simp only []
    rw [if_neg hK, if_neg hM]
  · show some (truncQ (1 * (digitsVal (lstr "1") : ℚ) * 1000)) = some 1000
    rw [truncQ_eq_of_eq_intCast (n := 1000) (by rw [show digitsVal (lstr "1") = 1 from by decide]; norm_num)]
  · show some (truncQ (1 * ((digitsVal (lstr "2") : ℚ) +
        (digitsVal (lstr "5") : ℚ) / 10 ^ (lstr "5").length) * 1000)) = some 2500
    rw [truncQ_eq_of_eq_intCast (n := 2500) (by
      rw [show digitsVal (lstr "2") = 2 from by decide,
          show digitsVal (lstr "5") = 5 from by decide,
          show (lstr "5").length = 1 from by decide]
      norm_num)]
  · show some (truncQ (1 * (digitsVal (lstr "3") : ℚ) * 1000000)) = some 3000000
    rw [truncQ_eq_of_eq_intCast (n := 3000000) (by
      rw [show digitsVal (lstr "3") = 3 from by decide]; norm_num)]
  · show some (truncQ (1 * ((digitsVal (lstr "1") : ℚ) +
        (digitsVal (lstr "2") : ℚ) / 10 ^ (lstr "2").length) * 1000)) = some 1200
    rw [truncQ_eq_of_eq_intCast (n := 1200) (by
      rw [show digitsVal (lstr "1") = 1 from by decide,
          show digitsVal (lstr "2") = 2 from by decide,
          show (lstr "2").length = 1 from by decide]
      norm_num)]

/-- Witness for the amended C4 theorem at the input `"42"`. -/
theorem c4_amended_witness :
    ∃ n : ℤ, convert_abbreviated_to_number (lstr "42") = some n :=
  c4_amended.1 (lstr "42") (by decide) (by decide)

/-! ## C5, C6: the sentiment classifier -/

/-- Evaluation helper: `round3` through a computed floor. -/
theorem round3_floor_eq {q : ℚ} {k : ℤ} (h : ⌊q * 1000 + 1/2⌋ = k) :
    round3 q = (k : ℚ) / 1000 := by
  rw [round3, round_eq, h]

/-- Rounding to 3 decimals cannot cross the 0.1 threshold upward. -/
theorem round3_le_tenth {p : ℚ} (h : p ≤ 1/10) : round3 p ≤ 1/10 := by
  have h1 : ⌊p * 1000 + 1/2⌋ < 101 := Int.floor_lt.mpr (by push_cast; linarith)
  rw [round3, round_eq]
  have h2 : ((⌊p * 1000 + 1/2⌋ : ℤ) : ℚ) ≤ 100 := by exact_mod_cast (by omega : ⌊p * 1000 + 1/2⌋ ≤ 100)
  linarith

/-- Rounding to 3 decimals cannot cross the -0.1 threshold downward. -/
theorem neg_tenth_le_round3 {p : ℚ} (h : -(1/10) ≤ p) : -(1/10) ≤ round3 p := by
  have h1 : (-100 : ℤ) ≤ ⌊p * 1000 + 1/2⌋ := Int.le_floor.mpr (by push_cast; linarith)
  rw [round3, round_eq]
  have h2 : ((-100 : ℤ) : ℚ) ≤ ((⌊p * 1000 + 1/2⌋ : ℤ) : ℚ) := by exact_mod_cast h1
  push_cast at h2
  linarith

/-- A rounded score strictly above 0.1 forces a polarity strictly above 0.1. -/
theorem tenth_lt_of_round3 {p : ℚ} (h : 1/10 < round3 p) : 1/10 < p := by
  rw [round3, round_eq] at h
  have h1 : (100 : ℚ) < ((⌊p * 1000 + 1/2⌋ : ℤ) : ℚ) := by linarith
  have h2 : (100 : ℤ) < ⌊p * 1000 + 1/2⌋ := by exact_mod_cast h1
  have h3 : ((101 : ℤ) : ℚ) ≤ p * 1000 + 1/2 := Int.le_floor.mp (by omega)
  push_cast at h3
  linarith

/-- A rounded score strictly below -0.1 forces a polarity strictly below -0.1. -/
theorem round3_lt_of_lt_neg {p : ℚ} (h : round3 p < -(1/10)) : p < -(1/10) := by
  rw [round3, round_eq] at h
  have h1 : ((⌊p * 1000 + 1/2⌋ : ℤ) : ℚ) < -100 := by linarith
  have h2 : ⌊p * 1000 + 1/2⌋ < -100 := by exact_mod_cast h1
  have h3 := Int.lt_floor_add_one (p * 1000 + 1/2)
  have h4 : ((⌊p * 1000 + 1/2⌋ : ℤ) : ℚ) + 1 ≤ -100 := by
    exact_mod_cast (by omega : ⌊p * 1000 + 1/2⌋ + 1 ≤ -100)
  linarith

/-- C5, counterexample: a polarity of 0.1004 (a legal engine output in
[-1, 1]) is classified `positive` (0.1004 > 0.1) but persists with the
rounded score 0.1, and the pair (`positive`, 0.1) violates the claimed
label/score threshold consistency: a score in [-0.1, 0.1] demands `neutral`. -/
theorem c5_counterexample :
    analyze_sentiment true (fun _ => some (251/2500)) (some (lstr "a")) = ("positive", 1/10) ∧
    ¬ labelScoreConsistent "positive" (1/10) := by
  constructor
  · have h1 : round3 (251/2500 : ℚ) = ((100 : ℤ) : ℚ) / 1000 :=
      round3_floor_eq (by rw [Int.floor_eq_iff]; constructor <;> norm_num)
    have h3 : round3 (251/2500 : ℚ) = 1/10 := by
      rw [h1]
      norm_num
    have hval : analyze_sentiment true (fun _ => some (251/2500 : ℚ)) (some (lstr "a")) =
        (if (1:ℚ)/10 < 251/2500 then "positive"
         else if (251/2500 : ℚ) < -(1/10) then "negative" else "neutral",
          round3 (251/2500)) := by
      simp [analyze_sentiment, show ¬(lstr "a" = ([] : Str)) from by decide]
    rw [hval, if_pos (by norm_num : (1:ℚ)/10 < 251/2500), h3]
  · intro h
    have h3 := h.2.2 ⟨by norm_num, by norm_num⟩
    exact absurd h3 (by decide)

/-- C5, amended: the persisted label agrees with the thresholds applied to
the raw polarity, and with the rounded score the consistency holds in three
of the four directions — `score > 0.1` implies positive, `score < -0.1`
implies negative, and label neutral implies `-0.1 ≤ score ≤ 0.1` — but a
score in `[-0.1, 0.1]` does not force the label neutral (rounding can pull
a polarity within 0.0005 of a threshold back onto it). -/
theorem c5_amended (engine : Str → Option ℚ) (s : Str) (p : ℚ)
    (hs : s ≠ []) (he : engine s = some p) :
    ((analyze_sentiment true engine (some s)).2 = round3 p) ∧
    (1/10 < (analyze_sentiment true engine (some s)).2 →
      (analyze_sentiment true engine (some s)).1 = "positive") ∧
    ((analyze_sentiment true engine (some s)).2 < -(1/10) →
      (analyze_sentiment true engine (some s)).1 = "negative") ∧
    ((analyze_sentiment true engine (some s)).1 = "neutral" →
      -(1/10) ≤ (analyze_sentiment true engine (some s)).2 ∧
        (analyze_sentiment true engine (some s)).2 ≤ 1/10) := by
  have hval : analyze_sentiment true engine (some s) =
      (if 1/10 < p then "positive" else if p < -(1/10) then "negative" else "neutral",
        round3 p) := by
    simp [analyze_sentiment, hs, he]
  rw [hval]
  refine ⟨rfl, ?_, ?_, ?_⟩
  · intro h
    rw [if_pos (tenth_lt_of_round3 h)]
  · intro h
    have hp := round3_lt_of_lt_neg h
    rw [if_neg (by linarith : ¬ (1:ℚ)/10 < p), if_pos hp]
  · intro h
    have h0 : (if 1/10 < p then "positive" else
        if p < -(1/10) then "negative" else "neutral") = "neutral" := h
    by_cases h1 : (1:ℚ)/10 < p
    · rw [if_pos h1] at h0
      exact absurd h0 (by decide)
    · by_cases h2 : p < -(1/10)
      · rw [if_neg h1, if_pos h2] at h0
        exact absurd h0 (by decide)
      · push_neg at h1 h2
        exact ⟨neg_tenth_le_round3 h2, round3_le_tenth h1⟩

/-- Witness for the amended C5 theorem: engine polarity 1/2 on the text
`"a"`. -/
theorem c5_amended_witness :
    (analyze_sentiment true (fun _ => some (1/2)) (some (lstr "a"))).2 = round3 (1/2) :=
  (c5_amended (fun _ => some (1/2)) (lstr "a") (1/2) (by decide) rfl).1

/-- C6 (confirmed): `analyze_sentiment` returns exactly (`neutral`, 0.0)
when the capability flag is down, the text is `None` or empty, or the engine
raises (no exception propagates — the embedding is total); otherwise it
returns the threshold label of the raw polarity with the polarity rounded to
3 decimal places. -/
theorem c6_degraded_mode :
    ∀ (avail : Bool) (engine : Str → Option ℚ) (t : Option Str),
    (avail = false → analyze_sentiment avail engine t = ("neutral", 0)) ∧
    (t = none → analyze_sentiment avail engine t = ("neutral", 0)) ∧
    (t = some [] → analyze_sentiment avail engine t = ("neutral", 0)) ∧
    (∀ s, t = some s → s ≠ [] → engine s = none →
      analyze_sentiment avail engine t = ("neutral", 0)) ∧
    (∀ s p, t = some s → s ≠ [] → avail = true → engine s = some p →
      (1/10 < p → analyze_sentiment avail engine t = ("positive", round3 p)) ∧
      (p < -(1/10) → analyze_sentiment avail engine t = ("negative", round3 p)) ∧
      (-(1/10) ≤ p → p ≤ 1/10 → analyze_sentiment avail engine t = ("neutral", round3 p))) := by
  intro avail engine t
  refine ⟨?_, ?_, ?_, ?_, ?_⟩
  · intro h
    cases t with
    | none => rfl
    | some s => simp [analyze_sentiment, h]
  · intro h
    subst h
    rfl
  · intro h
    subst h
    simp [analyze_sentiment]
  · intro s hs hne he
    subst hs
    by_cases ha : avail = false
    · simp [analyze_sentiment, ha]
    · simp [analyze_sentiment, ha, hne, he]
  · intro s p hs hne ha he
    subst hs
    subst ha
    have hbase : analyze_sentiment true engine (some s) =
        (if 1/10 < p then "positive" else if p < -(1/10) then "negative" else "neutral",
          round3 p) := by
      simp [analyze_sentiment, hne, he]
    refine ⟨?_, ?_, ?_⟩
    · intro h
      rw [hbase, if_pos h]
    · intro h
      rw [hbase, if_neg (by linarith : ¬ (1:ℚ)/10 < p), if_pos h]
    · intro h1 h2
      rw [hbase, if_neg (by linarith : ¬ (1:ℚ)/10 < p),
        if_neg (by linarith : ¬ p < -(1/10))]

/-- Witness for C6 at a concrete positive polarity. -/
theorem c6_degraded_mode_witness :
    analyze_sentiment true (fun _ => some (1/2)) (some (lstr "a")) =
      ("positive", round3 (1/2)) :=
  ((c6_degraded_mode true (fun _ => some (1/2)) (some (lstr "a"))).2.2.2.2
    (lstr "a") (1/2) rfl (by decide) rfl rfl).1 (by norm_num)

/-! ## C7: identifier resolution -/

/-- C7, counterexample: the href branch removes every `/`, not only trailing
path separators.  For an href whose marker suffix is `"1/2"`, the claimed
identifier (the suffix with trailing separators stripped) is `"1/2"`, but
the code produces `"12"`. -/
theorem c7_counterexample :
    resolvePostId { detailHref := some (lstr "urn:li:activity:1/2"), dataUrn := [],
                    actor := none, contentText := none, reactionsLabel := none } =
        some (lstr "12") ∧
    lstr "12" ≠ lstr "1/2" := by decide

/-- C7, amended: the resolution order is as claimed — the detail-link href
is consulted first whenever it yields a truthy identifier (the marker
suffix with every `/` removed, not just trailing ones), else the `data-urn`
attribute (whose marker suffix is taken verbatim, with no separator
stripping), and a container that yields neither is skipped entirely: the
state is completely unchanged and no record is produced. -/
theorem c7_amended :
    (∀ (c : Container) (i : Str), hrefSide c.detailHref = some i → i ≠ [] →
      resolvePostId c = some i) ∧
    (∀ (c : Container) (i : Str),
      (hrefSide c.detailHref = none ∨ hrefSide c.detailHref = some []) →
      urnSide c.dataUrn = some i → i ≠ [] → resolvePostId c = some i) ∧
    (∀ c : Container,
      (hrefSide c.detailHref = none ∨ hrefSide c.detailHref = some []) →
      (urnSide c.dataUrn = none ∨ urnSide c.dataUrn = some []) →
      resolvePostId c = none) ∧
    (∀ (env : Env) (c : Container) (s : St), resolvePostId c = none →
      processContainer env c s = (s, false)) ∧
    urnSide (lstr "urn:li:activity:3/") = some (lstr "3/") := by
  refine ⟨?_, ?_, ?_, ?_, by decide⟩
  · intro c i h hne
    unfold resolvePostId
    rw [h]
    simp [hne]
  · intro c i hh hu hne
    unfold resolvePostId
    rcases hh with h | h <;> rw [h] <;> simp <;> rw [hu] <;> simp [hne]
  · intro c hh hu
    unfold resolvePostId
    rcases hh with h | h <;> rcases hu with h2 | h2 <;> rw [h] <;> simp <;> rw [h2] <;> simp
  · intro env c s h
    unfold processContainer
    rw [h]

/-- Witness for the amended C7 theorem: a container with no resolvable
identifier leaves the loop state untouched. -/
theorem c7_amended_witness :
    processContainer trivEnv trivContainer trivSt = (trivSt, false) :=
  c7_amended.2.2.2.1 trivEnv trivContainer trivSt (by decide)

/-! ## C8: author name / title duplication stripping -/

/-- C8, counterexample: for the author *title*, the stored value is not the
bare halving of the raw string — it is additionally passed through the text
normalizer.  For the raw title `"**x** **x**"` the halving rule of the
claim yields `"**x**"`, but the code stores `"x"`. -/
theorem c8_counterexample :
    extractJobTitle jobTitleContainer = some (lstr "x") ∧
    specDuplicationStrip (lstr "**x** **x**") = lstr "**x**" ∧
    lstr "x" ≠ lstr "**x**" := by decide

/-- C8, amended: both the author name and the author title are halved
exactly by the claimed rule (split on whitespace; with `n ≥ 2` tokens keep
the first `⌊n/2⌋` joined by single spaces, else keep the raw string), and
that halving is the stored author name; but the stored author *title* is
the text normalizer applied to the halved string.  The claimed examples
hold: `"Jane Doe Jane Doe"` ↦ `"Jane Doe"`, single-token `"Cher"`
unchanged. -/
theorem c8_amended :
    (∀ (c : Container) (a : ActorParts) (raw : Str), c.actor = some a →
      a.nameRaw = some raw → raw ≠ [] →
      extractAuthorName c = some (specDuplicationStrip raw)) ∧
    (∀ (c : Container) (a : ActorParts) (raw : Str), c.actor = some a →
      a.jobRaw = some raw → raw ≠ [] →
      extractJobTitle c = some (clean_post_content (some (specDuplicationStrip raw)))) ∧
    specDuplicationStrip (lstr "Jane Doe Jane Doe") = lstr "Jane Doe" ∧
    specDuplicationStrip (lstr "Cher") = lstr "Cher" ∧
    extractAuthorName janeContainer = some (lstr "Jane Doe") := by
  refine ⟨?_, ?_, by decide, by decide, by decide⟩
  · intro c a raw hc ha hne
    unfold extractAuthorName specDuplicationStrip
    rw [hc]
    simp only [ha]
    rw [if_neg hne]
    split <;> rfl
  · intro c a raw hc ha hne
    unfold extractJobTitle specDuplicationStrip
    rw [hc]
    simp only [ha]
    rw [if_neg hne]

/-- Witness for the amended C8 theorem on the duplicated "Jane Doe". -/
theorem c8_amended_witness :
    extractAuthorName janeContainer =
      some (specDuplicationStrip (lstr "Jane Doe Jane Doe")) :=
  c8_amended.1 janeContainer
    { nameRaw := some (lstr "Jane Doe Jane Doe"), metaHref := none, jobRaw := none }
    (lstr "Jane Doe Jane Doe") rfl rfl (by decide)

/-! ## C10: which fields pass through the normalizer -/

/-- C10 (confirmed): the persisted author name is exactly the halved raw
text node content and is never passed through `clean_post_content` (an
emoji-bearing name half survives verbatim even though the normalizer would
strip it), while the author job title is the normalizer applied to its
halved raw text and the post content is the normalizer applied to the raw
content text. -/
theorem c10_name_not_cleaned :
    (∀ (c : Container) (a : ActorParts) (raw : Str), c.actor = some a →
      a.nameRaw = some raw → raw ≠ [] →
      extractAuthorName c = some (specDuplicationStrip raw)) ∧
    (∀ (c : Container) (a : ActorParts) (raw : Str), c.actor = some a →
      a.jobRaw = some raw → raw ≠ [] →
      extractJobTitle c = some (clean_post_content (some (specDuplicationStrip raw)))) ∧
    (∀ (c : Container) (raw : Str), c.contentText = some raw →
      extractContent c = some (clean_post_content (some raw))) ∧
    extractAuthorName fireContainer = some fireName ∧
    clean_post_content (some fireName) = lstr "A" ∧
    extractJobTitle fireContainer = some (lstr "A") := by
  refine ⟨?_, ?_, ?_, by decide, by decide, by decide⟩
  · intro c a raw hc ha hne
    unfold extractAuthorName specDuplicationStrip
    rw [hc]
    simp only [ha]
    rw [if_neg hne]
    split <;> rfl
  · intro c a raw hc ha hne
    unfold extractJobTitle specDuplicationStrip
    rw [hc]
    simp only [ha]
    rw [if_neg hne]
  · intro c raw hc
    unfold extractContent
    rw [hc]

/-- Witness for C10: the emoji-bearing post content is cleaned before
persistence. -/
theorem c10_name_not_cleaned_witness :
    extractContent fireContentContainer = some (clean_post_content (some fireName)) :=
  c10_name_not_cleaned.2.2.1 fireContentContainer fireName rfl

/-! ## C9: report generation fault tolerance -/

/-- The read loop maps a row with every optional column missing to the
default entry. -/
theorem readCsvRow_empty : readCsvRow emptyCsvRow = some defaultEntry := rfl

/-- The read loop succeeds on any store of fully-default rows. -/
theorem mapM_readCsvRow_replicate (m : ℕ) :
    (List.replicate m emptyCsvRow).mapM readCsvRow =
      some (List.replicate m defaultEntry) := by
  induction m with
  | zero => rfl
  | succ k ih =>
      rw [List.replicate_succ, List.replicate_succ, List.mapM_cons, readCsvRow_empty, ih]
      rfl

/-- Folding `max` from 0 over zeros stays 0. -/
theorem foldl_max_replicate_zero (k : ℕ) :
    List.foldl max (0 : ℤ) (List.replicate k 0) = 0 := by
  induction k with
  | zero => rfl
  | succ j ih => rw [List.replicate_succ]; simpa using ih

/-- Folding `min` from 0 over zeros stays 0. -/
theorem foldl_min_replicate_zero (k : ℕ) :
    List.foldl min (0 : ℤ) (List.replicate k 0) = 0 := by
  induction k with
  | zero => rfl
  | succ j ih => rw [List.replicate_succ]; simpa using ih

/-- C9 (confirmed): the report generator never lets an exception escape (its
embedding is total, every failure mode yielding `none`); an absent store
file reports the failure and produces no output, as does a store with no
data rows; and rows whose optional columns are all missing are processed
with the defaults — label `neutral`, score 0.0, reactions 0 — so a store of
`n > 0` such rows yields a report with `n` neutral posts, zero
positive/negative posts, zero total/average/max/min reactions, zero average
score, and a 100% neutral share. -/
theorem c9_report_fault_tolerance :
    generate_sentiment_report none = none ∧
    generate_sentiment_report (some []) = none ∧
    (∀ n : ℕ, 0 < n →
      generate_sentiment_report (some (List.replicate n emptyCsvRow)) =
        some (computeStats (List.replicate n defaultEntry)) ∧
      (computeStats (List.replicate n defaultEntry)).totalPosts = n ∧
      (computeStats (List.replicate n defaultEntry)).neutralCount = n ∧
      (computeStats (List.replicate n defaultEntry)).positiveCount = 0 ∧
      (computeStats (List.replicate n defaultEntry)).negativeCount = 0 ∧
      (computeStats (List.replicate n defaultEntry)).avgScore = 0 ∧
      (computeStats (List.replicate n defaultEntry)).totalReactions = 0 ∧
      (computeStats (List.replicate n defaultEntry)).avgReactions = 0 ∧
      (computeStats (List.replicate n defaultEntry)).maxReactions = 0 ∧
      (computeStats (List.replicate n defaultEntry)).minReactions = 0 ∧
      (computeStats (List.replicate n defaultEntry)).neutralPct = 100) := by
  refine ⟨rfl, rfl, ?_⟩
  intro n hn
  have hne : List.replicate n defaultEntry ≠ [] := by
    intro h
    have := congrArg List.length h
    simp at this
    omega
  refine ⟨?_, ?_, ?_, ?_, ?_, ?_, ?_, ?_, ?_, ?_, ?_⟩
  · simp only [generate_sentiment_report, mapM_readCsvRow_replicate]
    rw [if_neg hne]
  · simp [computeStats]
  · simp [computeStats, defaultEntry, List.count_replicate]
  · simp [computeStats, defaultEntry, List.count_replicate]
    intro h
    exact absurd h (by decide)
  · simp [computeStats, defaultEntry, List.count_replicate]
    intro h
    exact absurd h (by decide)
  · simp [computeStats, defaultEntry]
  · simp [computeStats, defaultEntry]
  · simp [computeStats, defaultEntry]
  · cases n with
    | zero => omega
    | succ k =>
        simp [computeStats, defaultEntry, maxZ, List.replicate_succ]
        simpa using foldl_max_replicate_zero k
  · cases n with
    | zero => omega
    | succ k =>
        simp [computeStats, defaultEntry, minZ, List.replicate_succ]
        simpa using foldl_min_replicate_zero k
  · simp [computeStats, defaultEntry, List.count_replicate]
    rw [div_self (by exact_mod_cast Nat.pos_iff_ne_zero.mp hn)]

/-- Witness for C9 at a two-row store of fully-default rows. -/
theorem c9_report_fault_tolerance_witness :
    generate_sentiment_report (some (List.replicate 2 emptyCsvRow)) =
      some (computeStats (List.replicate 2 defaultEntry)) :=
  ((c9_report_fault_tolerance.2.2 2 (by norm_num)).1)

/-! ## Loop infrastructure lemmas for C1 and C2 -/

/-- A state with a false guard is a fixed point of the loop. -/
theorem runLoop_eq_of_not_guard (env : Env) (snaps : ℕ → List Container) (fuel : ℕ)
    (s : St) (h : ¬ loopGuard s) : runLoop env snaps fuel s = s := by
  cases fuel with
  | zero => rfl
  | succ k => simp [runLoop, h]

/-- The row built for `pid` carries `pid` as its identifier. -/
theorem makeRow_postId (env : Env) (c : Container) (pid : Str) (row : Row)
    (h : makeRow env c pid = some row) : row.postId = pid := by
  unfold makeRow at h
  cases hr : extractReactions c with
  | none => rw [hr] at h; cases h
  | some n =>
      rw [hr] at h
      injection h with h2
      rw [← h2]

/-- A resolved identifier is never the empty string (both branches of the
resolution test Python truthiness). -/
theorem resolvePostId_ne_nil (c : Container) (i : Str) (h : resolvePostId c = some i) :
    i ≠ [] := by
  unfold resolvePostId at h
  cases hh : hrefSide c.detailHref with
  | some t =>
      rw [hh] at h
      dsimp only at h
      by_cases ht : t = []
      · rw [if_pos ht] at h
        dsimp only at h
        cases hu : urnSide c.dataUrn with
        | none => rw [hu] at h; cases h
        | some u =>
            rw [hu] at h
            dsimp only at h
            by_cases hu2 : u = []
            · rw [if_pos hu2] at h; cases h
            · rw [if_neg hu2] at h
              injection h with h2
              rw [← h2]; exact hu2
      · rw [if_neg ht] at h
        dsimp only at h
        injection h with h2
        rw [← h2]; exact ht
  | none =>
      rw [hh] at h
      dsimp only at h
      cases hu : urnSide c.dataUrn with
      | none => rw [hu] at h; cases h
      | some u =>
          rw [hu] at h
          dsimp only at h
          by_cases hu2 : u = []
          · rw [if_pos hu2] at h; cases h
          · rw [if_neg hu2] at h
            injection h with h2
            rw [← h2]; exact hu2

/-- Complete case analysis of `processContainer`. -/
theorem pc_spec (env : Env) (c : Container) (s : St) :
    (resolvePostId c = none ∧ processContainer env c s = (s, false)) ∨
    (∃ pid, resolvePostId c = some pid ∧ pid ∈ s.ledger ∧
      processContainer env c s =
        ({ s with totalProcessed := s.totalProcessed + 1, skipped := s.skipped + 1 },
          false)) ∨
    (∃ pid, resolvePostId c = some pid ∧ pid ∉ s.ledger ∧ makeRow env c pid = none ∧
      processContainer env c s =
        ({ s with totalProcessed := s.totalProcessed + 1, ledger := pid :: s.ledger,
                  crashed := true }, false)) ∨
    (∃ pid row, resolvePostId c = some pid ∧ pid ∉ s.ledger ∧
      makeRow env c pid = some row ∧ row.postId = pid ∧
      processContainer env c s =
        ({ s with totalProcessed := s.totalProcessed + 1, ledger := pid :: s.ledger,
                  rows := s.rows ++ [row], newPosts := s.newPosts + 1 }, true)) := by
  unfold processContainer
  cases hres : resolvePostId c with
  | none => exact Or.inl ⟨rfl, rfl⟩
  | some pid =>
      by_cases hmem : pid ∈ s.ledger
      · exact Or.inr (Or.inl ⟨pid, rfl, hmem, by simp [hmem]⟩)
      · cases hmk : makeRow env c pid with
        | none =>
            exact Or.inr (Or.inr (Or.inl ⟨pid, rfl, hmem, hmk, by simp [hmem, hmk]⟩))
        | some row =>
            exact Or.inr (Or.inr (Or.inr ⟨pid, row, rfl, hmem, hmk,
              makeRow_postId env c pid row hmk, by simp [hmem, hmk]⟩))

/-- Fields `processContainer` can only move one way (or never touches). -/
theorem pc_mono (env : Env) (c : Container) (s : St) :
    (processContainer env c s).1.scroll = s.scroll ∧
    (processContainer env c s).1.noNew = s.noNew ∧
    (processContainer env c s).1.cycleIdx = s.cycleIdx ∧
    s.newPosts ≤ (processContainer env c s).1.newPosts ∧
    (∀ i ∈ s.ledger, i ∈ (processContainer env c s).1.ledger) ∧
    (s.crashed = true → (processContainer env c s).1.crashed = true) ∧
    (∃ app, (processContainer env c s).1.rows = s.rows ++ app) := by
  rcases pc_spec env c s with ⟨_, h⟩ | ⟨pid, _, _, h⟩ | ⟨pid, _, _, _, h⟩ |
    ⟨pid, row, _, _, _, _, h⟩ <;> rw [h] <;>
    refine ⟨rfl, rfl, rfl, ?_, ?_, ?_, ?_⟩ <;>
    simp [List.mem_cons] <;> try omega
  all_goals intro i hi; simp [hi]

/-- Monotone and frame facts about one pass over a container list. -/
theorem pa_mono (env : Env) (cs : List Container) : ∀ s : St,
    (processAll env cs s).scroll = s.scroll ∧
    (processAll env cs s).noNew = s.noNew ∧
    (processAll env cs s).cycleIdx = s.cycleIdx ∧
    s.newPosts ≤ (processAll env cs s).newPosts ∧
    (∀ i ∈ s.ledger, i ∈ (processAll env cs s).ledger) ∧
    (s.crashed = true → (processAll env cs s).crashed = true) ∧
    (∃ app, (processAll env cs s).rows = s.rows ++ app) := by
  induction cs with
  | nil =>
      intro s
      exact ⟨rfl, rfl, rfl, le_refl _, fun i hi => hi, fun h => h,
        ⟨[], by simp [processAll]⟩⟩
  | cons c cs ih =>
      intro s
      obtain ⟨p1, p2, p3, p4, p5, p6, p7⟩ := pc_mono env c s
      obtain ⟨q1, q2, q3, q4, q5, q6, q7⟩ := ih (processContainer env c s).1
      unfold processAll
      split
      · exact ⟨p1, p2, p3, p4, p5, p6, p7⟩
      · split
        · exact ⟨p1, p2, p3, p4, p5, p6, p7⟩
        · obtain ⟨a1, ha1⟩ := p7
          obtain ⟨a2, ha2⟩ := q7
          exact ⟨q1.trans p1, q2.trans p2, q3.trans p3, le_trans p4 q4,
            fun i hi => q5 i (p5 i hi), fun h => q6 (p6 h),
            ⟨a1 ++ a2, by rw [ha2, ha1, List.append_assoc]⟩⟩

/-- A pass that neither crashed nor reached the post cap has processed every
container, so every resolvable identifier of the pass is in the ledger. -/
theorem pa_processed (env : Env) (cs : List Container) : ∀ s : St,
    (processAll env cs s).crashed = false →
    (processAll env cs s).newPosts < MAX_POSTS →
    ∀ c ∈ cs, ∀ i, resolvePostId c = some i → i ∈ (processAll env cs s).ledger := by
  induction cs with
  | nil =>
      intro s _ _ c hc
      cases hc
  | cons c cs ih =>
      intro s hcr hnp c2 hc2 i hres
      unfold processAll at hcr hnp ⊢
      by_cases hb1 : (processContainer env c s).1.crashed = true
      · rw [if_pos hb1] at hcr
        rw [hcr] at hb1
        cases hb1
      · rw [if_neg hb1] at hcr hnp ⊢
        by_cases hb2 : (processContainer env c s).2 = true ∧
            MAX_POSTS ≤ (processContainer env c s).1.newPosts
        · rw [if_pos hb2] at hnp
          exact absurd hnp (not_lt.mpr hb2.2)
        · rw [if_neg hb2] at hcr hnp ⊢
          rcases List.mem_cons.mp hc2 with rfl | hmem
          · have hi : i ∈ (processContainer env c2 s).1.ledger := by
              rcases pc_spec env c2 s with ⟨hn, _⟩ | ⟨pid, hp, hm, he⟩ |
                ⟨pid, hp, hm, hmk, he⟩ | ⟨pid, row, hp, hm, hmk, hpid, he⟩
              · rw [hn] at hres
                cases hres
              · rw [hp] at hres
                injection hres with h2
                subst h2
                rw [he]
                exact hm
              · exact absurd (by rw [he] :
                  (processContainer env c2 s).1.crashed = true) hb1
              · rw [hp] at hres
                injection hres with h2
                subst h2
                rw [he]
                exact List.mem_cons_self _ _
            exact (pa_mono env cs _).2.2.2.2.1 i hi
          · exact ih _ hcr hnp c2 hmem i hres

/-- A pass all of whose resolvable identifiers are already in the ledger
changes nothing but the processed/duplicate counters. -/
theorem pa_all_dup (env : Env) (cs : List Container) : ∀ s : St, s.crashed = false →
    (∀ c ∈ cs, ∀ i, resolvePostId c = some i → i ∈ s.ledger) →
    (processAll env cs s).ledger = s.ledger ∧ (processAll env cs s).rows = s.rows ∧
    (processAll env cs s).newPosts = s.newPosts ∧
    (processAll env cs s).crashed = false := by
  induction cs with
  | nil =>
      intro s hcr _
      exact ⟨rfl, rfl, rfl, hcr⟩
  | cons c cs ih =>
      intro s hcr hall
      rcases pc_spec env c s with ⟨hn, he⟩ | ⟨pid, hp, hm, he⟩ |
        ⟨pid, hp, hm, hmk, he⟩ | ⟨pid, row, hp, hm, hmk, hpid, he⟩
      · have heq : processAll env (c :: cs) s = processAll env cs s := by
          conv_lhs => unfold processAll
          rw [he]
          simp [hcr]
        rw [heq]
        exact ih s hcr (fun c2 h2 => hall c2 (List.mem_cons_of_mem c h2))
      · have h222 : processAll env (c :: cs) s = processAll env cs
            ({ s with totalProcessed := s.totalProcessed + 1,
                      skipped := s.skipped + 1 }) := by
          conv_lhs => unfold processAll
          rw [he]
          simp [hcr]
        rw [h222]
        obtain ⟨g1, g2, g3, g4⟩ := ih
          ({ s with totalProcessed := s.totalProcessed + 1, skipped := s.skipped + 1 })
          hcr (fun c2 h2 i hi => hall c2 (List.mem_cons_of_mem c h2) i hi)
        exact ⟨by rw [g1], by rw [g2], by rw [g3], g4⟩
      · exact absurd (hall c (List.mem_cons_self c cs) pid hp) hm
      · exact absurd (hall c (List.mem_cons_self c cs) pid hp) hm

/-- One container step preserves the store-growth invariant. -/
theorem pc_rowsInv (env : Env) (snaps : ℕ → List Container) (stored : List Row)
    (k : ℕ) (c : Container) (hc : c ∈ snaps k) (s : St)
    (hI : RowsInv snaps stored s) : RowsInv snaps stored (processContainer env c s).1 := by
  rcases pc_spec env c s with ⟨hn, he⟩ | ⟨pid, hp, hm, he⟩ |
    ⟨pid, hp, hm, hmk, he⟩ | ⟨pid, row, hp, hm, hmk, hpid, he⟩ <;> rw [he]
  · exact hI
  · exact hI
  · obtain ⟨h1, app, h2, h3, h4, h5⟩ := hI
    exact ⟨fun i hi => List.mem_cons_of_mem _ (h1 i hi), app, h2, h3,
      fun i hi => List.mem_cons_of_mem _ (h4 i hi), h5⟩
  · obtain ⟨h1, app, h2, h3, h4, h5⟩ := hI
    refine ⟨fun i hi => List.mem_cons_of_mem _ (h1 i hi), app ++ [row],
      by rw [h2, List.append_assoc], ?_, ?_, ?_⟩
    · rw [List.map_append]
      rw [List.nodup_append]
      refine ⟨h3, by simp, ?_⟩
      intro i hi hi2
      simp at hi2
      rw [hi2, hpid] at hi
      exact hm (h4 pid hi)
    · intro i hi
      rw [List.map_append] at hi
      rcases List.mem_append.mp hi with hi | hi
      · exact List.mem_cons_of_mem _ (h4 i hi)
      · simp at hi
        rw [hi, hpid]
        exact List.mem_cons_self _ _
    · intro r2 hr2
      rcases List.mem_append.mp hr2 with hr2 | hr2
      · exact h5 r2 hr2
      · simp at hr2
        subst hr2
        refine ⟨⟨k, c, hc, by rw [hpid]; exact hp⟩, ?_⟩
        rw [hpid]
        intro hmem2
        exact hm (h1 pid hmem2)

/-- A pass preserves the store-growth invariant. -/
theorem pa_rowsInv (env : Env) (snaps : ℕ → List Container) (stored : List Row) :
    ∀ (cs : List Container) (k : ℕ), (∀ c ∈ cs, c ∈ snaps k) →
    ∀ s : St, RowsInv snaps stored s → RowsInv snaps stored (processAll env cs s) := by
  intro cs
  induction cs with
  | nil =>
      intro k _ s hI
      exact hI
  | cons c cs ih =>
      intro k hcs s hI
      have hstep := pc_rowsInv env snaps stored k c (hcs c (List.mem_cons_self c cs)) s hI
      unfold processAll
      split
      · exact hstep
      · split
        · exact hstep
        · exact ih k (fun c2 h2 => hcs c2 (List.mem_cons_of_mem c h2)) _ hstep

/-- One container step preserves the no-crash ledger bound. -/
theorem pc_ledgerBound (env : Env) (stored : List Row) (c : Container) (s : St)
    (hI : LedgerBound stored s) : LedgerBound stored (processContainer env c s).1 := by
  rcases pc_spec env c s with ⟨hn, he⟩ | ⟨pid, hp, hm, he⟩ |
    ⟨pid, hp, hm, hmk, he⟩ | ⟨pid, row, hp, hm, hmk, hpid, he⟩ <;> rw [he]
  · exact hI
  · exact hI
  · intro hcr
    cases hcr
  · intro hcr i hi
    rcases List.mem_cons.mp hi with rfl | hi2
    · right
      rw [List.map_append]
      apply List.mem_append.mpr
      right
      simp [hpid]
    · rcases hI hcr i hi2 with h | h
      · exact Or.inl h
      · right
        rw [List.map_append]
        exact List.mem_append.mpr (Or.inl h)

/-- A pass preserves the no-crash ledger bound. -/
theorem pa_ledgerBound (env : Env) (stored : List Row) (cs : List Container) :
    ∀ s : St, LedgerBound stored s → LedgerBound stored (processAll env cs s) := by
  induction cs with
  | nil =>
      intro s hI
      exact hI
  | cons c cs ih =>
      intro s hI
      have hstep := pc_ledgerBound env stored c s hI
      unfold processAll
      split
      · exact hstep
      · split
        · exact hstep
        · exact ih _ hstep

/-- Fields of one loop iteration in terms of the pass result. -/
theorem cycle_fields (env : Env) (snaps : ℕ → List Container) (s : St) :
    (cycleStep env snaps s).cycleIdx = s.cycleIdx + 1 ∧
    (cycleStep env snaps s).ledger = (processAll env (snaps s.cycleIdx) s).ledger ∧
    (cycleStep env snaps s).rows = (processAll env (snaps s.cycleIdx) s).rows ∧
    (cycleStep env snaps s).newPosts = (processAll env (snaps s.cycleIdx) s).newPosts ∧
    (cycleStep env snaps s).crashed = (processAll env (snaps s.cycleIdx) s).crashed := by
  unfold cycleStep
  dsimp only
  split
  · exact ⟨rfl, rfl, rfl, rfl, rfl⟩
  · split <;> split <;> exact ⟨rfl, rfl, rfl, rfl, rfl⟩

/-- The stagnation counter moves by at most one per iteration. -/
theorem cycle_noNew_le (env : Env) (snaps : ℕ → List Container) (s : St) :
    (cycleStep env snaps s).noNew ≤ s.noNew + 1 := by
  have hpa := (pa_mono env (snaps s.cycleIdx) s).2.1
  unfold cycleStep
  dsimp only
  split
  · dsimp only
    omega
  · split <;> split <;> dsimp only <;> omega

/-- The scroll counter moves by at most one per iteration. -/
theorem cycle_scroll_le (env : Env) (snaps : ℕ → List Container) (s : St) :
    (cycleStep env snaps s).scroll ≤ s.scroll + 1 := by
  have hpa := (pa_mono env (snaps s.cycleIdx) s).1
  unfold cycleStep
  dsimp only
  split
  · dsimp only
    omega
  · split <;> split <;> dsimp only <;> omega

/-- When the pass neither crashed nor reached the post cap, the iteration
advances pagination. -/
theorem cycle_scroll_of (env : Env) (snaps : ℕ → List Container) (s : St)
    (hcr : (processAll env (snaps s.cycleIdx) s).crashed = false)
    (hlt : (processAll env (snaps s.cycleIdx) s).newPosts < MAX_POSTS) :
    (cycleStep env snaps s).scroll = (processAll env (snaps s.cycleIdx) s).scroll + 1 := by
  unfold cycleStep
  dsimp only
  rw [if_neg (by rw [hcr]; exact Bool.false_ne_true)]
  split <;> simp [hlt]

/-- When the pass did not crash and accepted nothing, the stagnation counter
increments. -/
theorem cycle_noNew_of_no_new (env : Env) (snaps : ℕ → List Container) (s : St)
    (hcr : (processAll env (snaps s.cycleIdx) s).crashed = false)
    (heq : (processAll env (snaps s.cycleIdx) s).newPosts = s.newPosts) :
    (cycleStep env snaps s).noNew = (processAll env (snaps s.cycleIdx) s).noNew + 1 := by
  unfold cycleStep
  dsimp only
  rw [if_neg (by rw [hcr]; exact Bool.false_ne_true), if_pos heq]
  split <;> rfl

/-- A guarded iteration either advances pagination or leaves a state whose
guard is false (crash, or post cap reached mid-pass). -/
theorem cycle_scroll_or_stop (env : Env) (snaps : ℕ → List Container) (s : St) :
    (cycleStep env snaps s).scroll = s.scroll + 1 ∨ ¬ loopGuard (cycleStep env snaps s) := by
  obtain ⟨f1, f2, f3, f4, f5⟩ := cycle_fields env snaps s
  by_cases hcr : (processAll env (snaps s.cycleIdx) s).crashed = true
  · right
    intro hg
    have h1 : (cycleStep env snaps s).crashed = false := hg.1
    rw [f5, hcr] at h1
    cases h1
  · by_cases hlt : (processAll env (snaps s.cycleIdx) s).newPosts < MAX_POSTS
    · left
      rw [cycle_scroll_of env snaps s (Bool.not_eq_true _ ▸ hcr) hlt,
        (pa_mono env (snaps s.cycleIdx) s).1]
    · right
      intro hg
      have h2 : (cycleStep env snaps s).newPosts < MAX_POSTS := hg.2.1
      rw [f4] at h2
      exact hlt h2

/-- One unfolding of a guarded loop step. -/
theorem runLoop_succ_of_guard (env : Env) (snaps : ℕ → List Container) (k : ℕ)
    (s : St) (hg : loopGuard s) :
    runLoop env snaps (k + 1) s = runLoop env snaps k (cycleStep env snaps s) := by
  simp [runLoop, hg]

/-- Invariant-preservation combinator for the loop. -/
theorem runLoop_inv (env : Env) (snaps : ℕ → List Container) (P : St → Prop)
    (hP : ∀ s, loopGuard s → P s → P (cycleStep env snaps s)) :
    ∀ (fuel : ℕ) (s : St), P s → P (runLoop env snaps fuel s) := by
  intro fuel
  induction fuel with
  | zero =>
      intro s h
      exact h
  | succ k ih =>
      intro s h
      by_cases hg : loopGuard s
      · rw [runLoop_succ_of_guard env snaps k s hg]
        exact ih _ (hP s hg h)
      · rw [runLoop_eq_of_not_guard env snaps (k + 1) s hg]
        exact h

/-- With fuel exceeding the remaining pagination budget, the loop always
reaches a state whose guard is false: the while loop terminates. -/
theorem runLoop_term (env : Env) (snaps : ℕ → List Container) :
    ∀ (fuel : ℕ) (s : St), MAX_SCROLL_ATTEMPTS < s.scroll + fuel →
    ¬ loopGuard (runLoop env snaps fuel s) := by
  intro fuel
  induction fuel with
  | zero =>
      intro s h hg
      have h0 : runLoop env snaps 0 s = s := rfl
      rw [h0] at hg
      exact absurd hg.2.2.1 (by omega)
  | succ k ih =>
      intro s h
      by_cases hg : loopGuard s
      · rw [runLoop_succ_of_guard env snaps k s hg]
        rcases cycle_scroll_or_stop env snaps s with hs | hstop
        · exact ih _ (by rw [hs]; omega)
        · rw [runLoop_eq_of_not_guard env snaps k _ hstop]
          exact hstop
      · rw [runLoop_eq_of_not_guard env snaps (k + 1) s hg]
        exact hg

/-- The pagination counter never exceeds its configured maximum. -/
theorem runLoop_scroll_le (env : Env) (snaps : ℕ → List Container) :
    ∀ (fuel : ℕ) (s : St), s.scroll ≤ MAX_SCROLL_ATTEMPTS →
    (runLoop env snaps fuel s).scroll ≤ MAX_SCROLL_ATTEMPTS := by
  intro fuel
  induction fuel with
  | zero =>
      intro s h
      exact h
  | succ k ih =>
      intro s h
      by_cases hg : loopGuard s
      · rw [runLoop_succ_of_guard env snaps k s hg]
        apply ih
        have h2 := cycle_scroll_le env snaps s
        have h3 : s.scroll < MAX_SCROLL_ATTEMPTS := hg.2.2.1
        omega
      · rw [runLoop_eq_of_not_guard env snaps (k + 1) s hg]
        exact h

/-- One iteration preserves the store-growth invariant. -/
theorem cycle_rowsInv (env : Env) (snaps : ℕ → List Container) (stored : List Row)
    (s : St) (h : RowsInv snaps stored s) :
    RowsInv snaps stored (cycleStep env snaps s) := by
  obtain ⟨a1, app, a2, a3, a4, a5⟩ :=
    pa_rowsInv env snaps stored (snaps s.cycleIdx) s.cycleIdx (fun _ hc => hc) s h
  obtain ⟨f1, f2, f3, f4, f5⟩ := cycle_fields env snaps s
  exact ⟨fun i hi => by rw [f2]; exact a1 i hi, app, by rw [f3]; exact a2, a3,
    fun i hi => by rw [f2]; exact a4 i hi, a5⟩

/-- One iteration preserves the no-crash ledger bound. -/
theorem cycle_ledgerBound (env : Env) (snaps : ℕ → List Container) (stored : List Row)
    (s : St) (h : LedgerBound stored s) :
    LedgerBound stored (cycleStep env snaps s) := by
  have h1 := pa_ledgerBound env stored (snaps s.cycleIdx) s h
  obtain ⟨f1, f2, f3, f4, f5⟩ := cycle_fields env snaps s
  intro hcr i hi
  rw [f5] at hcr
  rw [f2] at hi
  rcases h1 hcr i hi with h2 | h2
  · exact Or.inl h2
  · right
    rw [f3]
    exact h2

/-- A guarded iteration preserves the processed-snapshot invariant. -/
theorem cycle_prevIds (env : Env) (snaps : ℕ → List Container) (s : St)
    (hg : loopGuard s) (h : PrevIdsInv snaps s) :
    PrevIdsInv snaps (cycleStep env snaps s) := by
  obtain ⟨f1, f2, f3, f4, f5⟩ := cycle_fields env snaps s
  have hcr0 : s.crashed = false := hg.1
  have hnp0 : s.newPosts < MAX_POSTS := hg.2.1
  have hprev : ∀ j, j < s.cycleIdx → ∀ c ∈ snaps j, ∀ i,
      resolvePostId c = some i → i ∈ s.ledger := by
    rcases h with h | h | h
    · rw [hcr0] at h
      cases h
    · exact absurd hnp0 (not_lt.mpr h)
    · exact h
  by_cases hcr : (processAll env (snaps s.cycleIdx) s).crashed = true
  · left
    rw [f5]
    exact hcr
  · by_cases hnp : MAX_POSTS ≤ (processAll env (snaps s.cycleIdx) s).newPosts
    · right
      left
      rw [f4]
      exact hnp
    · right
      right
      intro j hj c hc i hres
      rw [f1] at hj
      rw [f2]
      rcases Nat.lt_succ_iff_lt_or_eq.mp hj with hj2 | hj2
      · exact (pa_mono env (snaps s.cycleIdx) s).2.2.2.2.1 i (hprev j hj2 c hc i hres)
      · subst hj2
        exact pa_processed env (snaps s.cycleIdx) s (Bool.not_eq_true _ ▸ hcr)
          (not_le.mp hnp) c hc i hres

/-! ## C2: termination of the ingestion loop -/

/-- C2 (confirmed): for every snapshot sequence the loop terminates (with
fuel covering the pagination budget the guard is false at the final state);
the number of pagination advances never exceeds `MAX_SCROLL_ATTEMPTS`; and
if from cycle `N` on every resolvable identifier was already loaded from
the store or produced in a cycle before `N`, the loop runs at most
`N + MAX_NO_NEW_POSTS_IN_A_ROW` cycles. -/
theorem c2_termination (env : Env) (snaps : ℕ → List Container) (stored : List Row)
    (N : ℕ) :
    ¬ loopGuard (runIngestion env snaps stored) ∧
    (runIngestion env snaps stored).scroll ≤ MAX_SCROLL_ATTEMPTS ∧
    ((∀ k, N ≤ k → ∀ c ∈ snaps k, ∀ i, resolvePostId c = some i →
        i ∈ load_existing_post_ids stored ∨
          ∃ j, j < N ∧ ∃ c2 ∈ snaps j, resolvePostId c2 = some i) →
      (runIngestion env snaps stored).cycleIdx ≤ N + MAX_NO_NEW_POSTS_IN_A_ROW) := by
  refine ⟨?_, ?_, ?_⟩
  · apply runLoop_term
    simp [initState]
  · apply runLoop_scroll_le
    simp [initState]
  · intro H
    have hstep : ∀ s, loopGuard s →
        ((∀ i ∈ load_existing_post_ids stored, i ∈ s.ledger) ∧
          PrevIdsInv snaps s ∧ s.cycleIdx ≤ s.noNew + N ∧
          s.noNew ≤ MAX_NO_NEW_POSTS_IN_A_ROW) →
        ((∀ i ∈ load_existing_post_ids stored, i ∈ (cycleStep env snaps s).ledger) ∧
          PrevIdsInv snaps (cycleStep env snaps s) ∧
          (cycleStep env snaps s).cycleIdx ≤ (cycleStep env snaps s).noNew + N ∧
          (cycleStep env snaps s).noNew ≤ MAX_NO_NEW_POSTS_IN_A_ROW) := by
      intro s hg hI
      obtain ⟨hL, hPrev, hK, hB⟩ := hI
      obtain ⟨f1, f2, f3, f4, f5⟩ := cycle_fields env snaps s
      refine ⟨?_, cycle_prevIds env snaps s hg hPrev, ?_, ?_⟩
      · intro i hi
        rw [f2]
        exact (pa_mono env (snaps s.cycleIdx) s).2.2.2.2.1 i (hL i hi)
      · by_cases hNidx : s.cycleIdx < N
        · have h2 := cycle_noNew_le env snaps s
          omega
        · have hall : ∀ c ∈ snaps s.cycleIdx, ∀ i, resolvePostId c = some i →
              i ∈ s.ledger := by
            intro c hc i hres
            rcases H s.cycleIdx (le_of_not_lt hNidx) c hc i hres with h |
              ⟨j, hj, c2, hc2, hres2⟩
            · exact hL i h
            · rcases hPrev with hP | hP | hP
              · rw [hg.1] at hP
                cases hP
              · exact absurd hg.2.1 (not_lt.mpr hP)
              · exact hP j (lt_of_lt_of_le hj (le_of_not_lt hNidx)) c2 hc2 i hres2
          obtain ⟨g1, g2, g3, g4⟩ := pa_all_dup env (snaps s.cycleIdx) s hg.1 hall
          have hn := cycle_noNew_of_no_new env snaps s g4 g3
          have hpn : (processAll env (snaps s.cycleIdx) s).noNew = s.noNew :=
            (pa_mono env (snaps s.cycleIdx) s).2.1
          omega
      · have h2 := cycle_noNew_le env snaps s
        have h3 : s.noNew < MAX_NO_NEW_POSTS_IN_A_ROW := hg.2.2.2
        omega
    have hinit : (∀ i ∈ load_existing_post_ids stored,
          i ∈ (initState (load_existing_post_ids stored) stored).ledger) ∧
        PrevIdsInv snaps (initState (load_existing_post_ids stored) stored) ∧
        (initState (load_existing_post_ids stored) stored).cycleIdx ≤
          (initState (load_existing_post_ids stored) stored).noNew + N ∧
        (initState (load_existing_post_ids stored) stored).noNew ≤
          MAX_NO_NEW_POSTS_IN_A_ROW := by
      refine ⟨fun i hi => hi, Or.inr (Or.inr ?_), by simp [initState], by
        simp [initState, MAX_NO_NEW_POSTS_IN_A_ROW]⟩
      intro j hj
      simp [initState] at hj
    have hinv := runLoop_inv env snaps _ hstep (MAX_SCROLL_ATTEMPTS + 1)
      (initState (load_existing_post_ids stored) stored) hinit
    obtain ⟨_, _, hK, hB⟩ := hinv
    unfold runIngestion
    omega

/-- Witness for C2: the empty snapshot sequence terminates within the
stagnation budget. -/
theorem c2_termination_witness :
    ¬ loopGuard (runIngestion trivEnv (fun _ => []) []) ∧
    (runIngestion trivEnv (fun _ => []) []).cycleIdx ≤ 0 + MAX_NO_NEW_POSTS_IN_A_ROW :=
  ⟨(c2_termination trivEnv (fun _ => []) [] 0).1,
   (c2_termination trivEnv (fun _ => []) [] 0).2.2
     (fun _ _ c hc => absurd hc (List.not_mem_nil c))⟩

/-! ## C1: dedup / idempotent re-ingestion -/

/-- A stored row whose identifier is strip-invariant and nonempty is found
by the ledger loader. -/
theorem mem_load_of_mem_rows (rows : List Row) (r : Row) (hr : r ∈ rows)
    (hstrip : pyStrip r.postId = r.postId) (hne : r.postId ≠ []) :
    r.postId ∈ load_existing_post_ids rows := by
  induction rows with
  | nil => cases hr
  | cons r2 rest ih =>
      have hstep : load_existing_post_ids (r2 :: rest) =
          if pyStrip r2.postId = [] then load_existing_post_ids rest
          else pyStrip r2.postId :: load_existing_post_ids rest := rfl
      rw [hstep]
      rcases List.mem_cons.mp hr with rfl | hr2
      · rw [if_neg (by rw [hstrip]; exact hne), hstrip]
        exact List.mem_cons_self _ _
      · split
        · exact ih hr2
        · exact List.mem_cons_of_mem _ (ih hr2)

/-- A run whose snapshots (within the stagnation budget) resolve only to
identifiers already in the loaded ledger appends nothing to the store. -/
theorem run_all_dup (env : Env) (snaps : ℕ → List Container) (L : List Str)
    (rows0 : List Row)
    (H : ∀ k, k < MAX_NO_NEW_POSTS_IN_A_ROW → ∀ c ∈ snaps k, ∀ i,
      resolvePostId c = some i → i ∈ L) (fuel : ℕ) :
    (runLoop env snaps fuel (initState L rows0)).rows = rows0 := by
  have hstep : ∀ s, loopGuard s →
      (s.rows = rows0 ∧ s.ledger = L ∧ s.newPosts = 0 ∧ s.crashed = false ∧
        s.noNew = s.cycleIdx ∧ s.cycleIdx ≤ MAX_NO_NEW_POSTS_IN_A_ROW) →
      ((cycleStep env snaps s).rows = rows0 ∧ (cycleStep env snaps s).ledger = L ∧
        (cycleStep env snaps s).newPosts = 0 ∧ (cycleStep env snaps s).crashed = false ∧
        (cycleStep env snaps s).noNew = (cycleStep env snaps s).cycleIdx ∧
        (cycleStep env snaps s).cycleIdx ≤ MAX_NO_NEW_POSTS_IN_A_ROW) := by
    intro s hg hI
    obtain ⟨p1, p2, p3, p4, p5, p6⟩ := hI
    obtain ⟨f1, f2, f3, f4, f5⟩ := cycle_fields env snaps s
    have hidx : s.cycleIdx < MAX_NO_NEW_POSTS_IN_A_ROW := by
      have := hg.2.2.2
      omega
    have hall : ∀ c ∈ snaps s.cycleIdx, ∀ i, resolvePostId c = some i →
        i ∈ s.ledger := by
      intro c hc i hres
      rw [p2]
      exact H s.cycleIdx hidx c hc i hres
    obtain ⟨g1, g2, g3, g4⟩ := pa_all_dup env (snaps s.cycleIdx) s p4 hall
    have hn := cycle_noNew_of_no_new env snaps s g4 g3
    have hpn : (processAll env (snaps s.cycleIdx) s).noNew = s.noNew :=
      (pa_mono env (snaps s.cycleIdx) s).2.1
    refine ⟨by rw [f3, g2, p1], by rw [f2, g1, p2], by rw [f4, g3, p3],
      by rw [f5, g4], by omega, by omega⟩
  have hinit : (initState L rows0).rows = rows0 ∧ (initState L rows0).ledger = L ∧
      (initState L rows0).newPosts = 0 ∧ (initState L rows0).crashed = false ∧
      (initState L rows0).noNew = (initState L rows0).cycleIdx ∧
      (initState L rows0).cycleIdx ≤ MAX_NO_NEW_POSTS_IN_A_ROW :=
    ⟨rfl, rfl, rfl, rfl, rfl, Nat.zero_le _⟩
  exact (runLoop_inv env snaps _ hstep fuel (initState L rows0) hinit).1

/-- C1, counterexample: re-ingestion is not idempotent.  The writer persists
resolved identifiers verbatim while the ledger loader strips them, so a
`data-urn` of `"urn:li:activity: 1"` (identifier `" 1"`) is appended on the
first run, loaded back as `"1"`, and appended again — identically — by a
second run over the identical snapshot sequence: the store then holds the
same identifier twice, and its two rows exceed the one distinct id ever
seen. -/
theorem c1_counterexample :
    (runIngestion trivEnv spaceySnaps []).rows.map Row.postId = [lstr " 1"] ∧
    (runIngestion trivEnv spaceySnaps
        (runIngestion trivEnv spaceySnaps []).rows).rows.map Row.postId =
      [lstr " 1", lstr " 1"] := by decide

/-- C1, amended: within a single run no identifier is ever appended twice —
the appended rows carry pairwise-distinct identifiers, none already in the
loaded ledger, and each resolved from some snapshot container (so the store
never exceeds the loaded rows plus the distinct ids seen); and if every
resolvable identifier is strip-invariant and the first run (from an empty
store) neither crashed on reaction parsing nor reached the `MAX_POSTS` cap,
then a second run against the identical snapshot sequence appends zero new
records. -/
theorem c1_dedup :
    (∀ (env : Env) (snaps : ℕ → List Container) (stored : List Row),
      ∃ app, (runIngestion env snaps stored).rows = stored ++ app ∧
        (app.map Row.postId).Nodup ∧
        (∀ i ∈ app.map Row.postId, i ∉ load_existing_post_ids stored) ∧
        (∀ r ∈ app, ∃ k c, c ∈ snaps k ∧ resolvePostId c = some r.postId)) ∧
    (∀ (env env2 : Env) (snaps : ℕ → List Container),
      (∀ k c i, c ∈ snaps k → resolvePostId c = some i → pyStrip i = i) →
      (runIngestion env snaps []).newPosts < MAX_POSTS →
      (runIngestion env snaps []).crashed = false →
      (runIngestion env2 snaps (runIngestion env snaps []).rows).rows =
        (runIngestion env snaps []).rows) := by
  constructor
  · intro env snaps stored
    have hinit : RowsInv snaps stored
        (initState (load_existing_post_ids stored) stored) := by
      refine ⟨fun i hi => hi, [], ?_, List.nodup_nil, ?_, ?_⟩
      · show stored = stored ++ []
        rw [List.append_nil]
      · intro i hi
        cases hi
      · intro r hr
        cases hr
    have hR := runLoop_inv env snaps (RowsInv snaps stored)
      (fun s _ h => cycle_rowsInv env snaps stored s h)
      (MAX_SCROLL_ATTEMPTS + 1) (initState (load_existing_post_ids stored) stored) hinit
    obtain ⟨hRL, app, hAppEq, hNodup, hAppLed, hAppSrc⟩ := hR
    refine ⟨app, hAppEq, hNodup, ?_, fun r hr => (hAppSrc r hr).1⟩
    intro i hi hmem
    obtain ⟨r, hr, hrid⟩ := List.mem_map.mp hi
    exact (hAppSrc r hr).2 (hrid ▸ hmem)
  · intro env env2 snaps hstrip hcap hcr
    have hinitR : RowsInv snaps [] (initState (load_existing_post_ids []) []) := by
      refine ⟨fun i hi => hi, [], rfl, List.nodup_nil, ?_, ?_⟩
      · intro i hi
        cases hi
      · intro r hr
        cases hr
    have hrun : runLoop env snaps (MAX_SCROLL_ATTEMPTS + 1)
        (initState (load_existing_post_ids []) []) = runIngestion env snaps [] := rfl
    have hR := runLoop_inv env snaps (RowsInv snaps [])
      (fun s _ h => cycle_rowsInv env snaps [] s h)
      (MAX_SCROLL_ATTEMPTS + 1) (initState (load_existing_post_ids []) []) hinitR
    rw [hrun] at hR
    obtain ⟨hRL, app, hAppEq, hNodup, hAppLed, hAppSrc⟩ := hR
    have hLB := runLoop_inv env snaps (LedgerBound [])
      (fun s _ h => cycle_ledgerBound env snaps [] s h)
      (MAX_SCROLL_ATTEMPTS + 1) (initState (load_existing_post_ids []) [])
      (fun _ i hi => by cases hi)
    rw [hrun] at hLB
    have hPrev := runLoop_inv env snaps (PrevIdsInv snaps)
      (fun s hg h => cycle_prevIds env snaps s hg h)
      (MAX_SCROLL_ATTEMPTS + 1) (initState (load_existing_post_ids []) [])
      (Or.inr (Or.inr (fun j hj => by cases hj)))
    rw [hrun] at hPrev
    have hIdx := runLoop_inv env snaps
      (fun s => s.noNew ≤ s.cycleIdx ∧ s.scroll ≤ s.cycleIdx)
      (fun s _ h => by
        obtain ⟨f1, _, _, _, _⟩ := cycle_fields env snaps s
        have h1 := cycle_noNew_le env snaps s
        have h2 := cycle_scroll_le env snaps s
        omega)
      (MAX_SCROLL_ATTEMPTS + 1) (initState (load_existing_post_ids []) [])
      ⟨Nat.le_refl _, Nat.le_refl _⟩
    rw [hrun] at hIdx
    have hterm := runLoop_term env snaps (MAX_SCROLL_ATTEMPTS + 1)
      (initState (load_existing_post_ids []) []) (by simp [initState])
    rw [hrun] at hterm
    have hPrevR : ∀ j, j < (runIngestion env snaps []).cycleIdx →
        ∀ c ∈ snaps j, ∀ i, resolvePostId c = some i →
          i ∈ (runIngestion env snaps []).ledger := by
      rcases hPrev with h | h | h
      · rw [hcr] at h
        cases h
      · exact absurd hcap (not_lt.mpr h)
      · exact h
    have hfifty : MAX_NO_NEW_POSTS_IN_A_ROW ≤ (runIngestion env snaps []).cycleIdx := by
      have hng : ¬ loopGuard (runIngestion env snaps []) := hterm
      have hconst1 : MAX_SCROLL_ATTEMPTS = 80 := rfl
      have hconst2 : MAX_NO_NEW_POSTS_IN_A_ROW = 50 := rfl
      unfold loopGuard at hng
      push_neg at hng
      have h3 := hng hcr hcap
      rcases Nat.lt_or_ge (runIngestion env snaps []).scroll MAX_SCROLL_ATTEMPTS with
        h4 | h4
      · have h5 := h3 h4
        omega
      · obtain ⟨_, h6⟩ := hIdx
        omega
    have hload : ∀ k, k < MAX_NO_NEW_POSTS_IN_A_ROW → ∀ c ∈ snaps k, ∀ i,
        resolvePostId c = some i →
        i ∈ load_existing_post_ids (runIngestion env snaps []).rows := by
      intro k hk c hc i hres
      have hled : i ∈ (runIngestion env snaps []).ledger :=
        hPrevR k (by omega) c hc i hres
      rcases hLB hcr i hled with h | h
      · cases h
      · obtain ⟨r, hr, hrid⟩ := List.mem_map.mp h
        have hrapp : r ∈ app := by
          have := hAppEq
          rw [List.nil_append] at this
          rw [← this]
          exact hr
        obtain ⟨⟨k2, c2, hc2, hres2⟩, _⟩ := hAppSrc r hrapp
        have hstrip2 : pyStrip r.postId = r.postId := hstrip k2 c2 r.postId hc2 hres2
        have hne2 : r.postId ≠ [] := resolvePostId_ne_nil c2 r.postId hres2
        rw [← hrid]
        exact mem_load_of_mem_rows (runIngestion env snaps []).rows r hr hstrip2 hne2
    exact run_all_dup env2 snaps (load_existing_post_ids (runIngestion env snaps []).rows)
      (runIngestion env snaps []).rows hload (MAX_SCROLL_ATTEMPTS + 1)

/-- Witness for the amended C1 theorem: the empty snapshot sequence is
idempotent under re-ingestion. -/
theorem c1_dedup_witness :
    (runIngestion trivEnv (fun _ => []) (runIngestion trivEnv (fun _ => []) []).rows).rows =
      (runIngestion trivEnv (fun _ => []) []).rows :=
  c1_dedup.2 trivEnv trivEnv (fun _ => [])
    (fun _ c _ hc => absurd hc (List.not_mem_nil c)) (by decide) (by decide)
